import Mathlib

/-!
Verification development for `scripts/garmin_token_store.py`.

The Python module manipulates an on-disk token store: a directory holding
`oauth1_token.json` and `oauth2_token.json`.  We embed the module shallowly:

* POSIX path arithmetic (`posixpath.normpath`, `join`, `dirname`,
  `os.path.abspath`) is translated to functions over `List Char`;
* the filesystem is a flat map from canonical absolute paths to file
  contents, together with a set of directories; every operation resolves
  its argument through the current working directory exactly as the OS
  does for the underlying system calls;
* the standard-library codecs (`zipfile`, `json`, `base64`) are opaque
  collaborators, passed in as a bundle of functions (`PyLibs`); the
  control flow around them is translated from the source.
-/

namespace GarminTokenStore

/-! ## POSIX path arithmetic over `List Char` -/

/-- Split a character list on `'/'`.  `splitSlash "a//b".data = [[a],[],[b]]`,
matching Python's `str.split("/")`. -/
def splitSlash : List Char → List (List Char)
  | [] => [[]]
  | c :: cs =>
    match splitSlash cs with
    | [] => [[c]]
    | h :: t => if c = '/' then [] :: h :: t else (c :: h) :: t

/-- Join components with `'/'`, matching Python's `"/".join`. -/
def joinSlash : List (List Char) → List Char
  | [] => []
  | [c] => c
  | c :: cs => c ++ '/' :: joinSlash cs

/-- The component-processing loop of `posixpath.normpath`: `isAbs` records
whether the path was absolute, `acc` is the (reversed) list of kept
components. -/
def normComps (isAbs : Bool) (acc : List (List Char)) : List (List Char) → List (List Char)
  | [] => acc
  | c :: cs =>
    if c = [] ∨ c = ['.'] then normComps isAbs acc cs
    else if c ≠ ['.', '.'] then normComps isAbs (c :: acc) cs
    else
      match acc with
      | [] => if isAbs then normComps isAbs [] cs else normComps isAbs [c] cs
      | a :: rest =>
        if a = ['.', '.'] then normComps isAbs (c :: a :: rest) cs
        else normComps isAbs rest cs

/-- Translation of `posixpath.normpath` on character lists, including the POSIX `'//'`
special case. -/
def normPathC (p : List Char) : List Char :=
  if p = [] then ['.']
  else
    let slashes : Nat :=
      if ['/', '/'].isPrefixOf p ∧ ¬ ['/', '/', '/'].isPrefixOf p then 2
      else if ['/'].isPrefixOf p then 1
      else 0
    let comps := normComps (decide (['/'].isPrefixOf p)) [] (splitSlash p)
    let joined := List.replicate slashes '/' ++ joinSlash comps.reverse
    if joined = [] then ['.'] else joined

/-- Translation of `posixpath.join` restricted to two arguments. -/
def joinC (a b : List Char) : List Char :=
  if ['/'].isPrefixOf b then b
  else if a = [] ∨ a.getLast? = some '/' then a ++ b
  else a ++ '/' :: b

/-- Translation of `os.path.abspath` relative to a current working directory:
`normpath(join(cwd, p))`. -/
def absPathC (cwd p : List Char) : List Char :=
  normPathC (joinC cwd p)

/-- Strip trailing `'/'` characters (Python's `rstrip("/")`). -/
def dropTrailingSlashes (p : List Char) : List Char :=
  (p.reverse.dropWhile (· = '/')).reverse

/-- Translation of `posixpath.dirname` on character lists: everything up to (and not
including) the last `'/'`, with trailing slashes stripped unless the head
is all slashes. -/
def dirnameC (p : List Char) : List Char :=
  let headPart := joinSlash (splitSlash p).dropLast
  let headSlashed := if (splitSlash p).length ≤ 1 then [] else headPart ++ ['/']
  if headSlashed = [] then []
  else if headSlashed.all (· = '/') then headSlashed
  else dropTrailingSlashes headSlashed

/-- Substring test on character lists (Python's `in` on `str`). -/
def containsSub (pat : List Char) : List Char → Bool
  | [] => pat.isEmpty
  | c :: cs => pat.isPrefixOf (c :: cs) || containsSub pat cs

/-- Translation of `str.replace("\\", "/")`: a single-character substitution. -/
def replaceBackslashes (p : List Char) : List Char :=
  p.map fun c => if c = '\\' then '/' else c

/-! String-level wrappers: paths at the interface are `String`s as in the
Python source, with the arithmetic carried out on their character lists. -/

/-- Translation of `os.path.abspath` as a `String` function. -/
def absPathS (cwd p : String) : String :=
  String.mk (absPathC cwd.data p.data)

/-- Translation of `os.path.join` (two arguments) as a `String` function. -/
def pathJoinS (a b : String) : String :=
  String.mk (joinC a.data b.data)

/-- Translation of `os.path.dirname` as a `String` function. -/
def dirnameS (p : String) : String :=
  String.mk (dirnameC p.data)

/-! ## JSON values -/

/-- JSON values as produced by `json.loads`; objects are association lists
with first-key-wins lookup (keys of a parsed object are distinct). -/
inductive Json where
  | null : Json
  | bool (b : Bool) : Json
  | num (n : Int) : Json
  | str (s : String) : Json
  | arr (xs : List Json) : Json
  | obj (kvs : List (String × Json)) : Json

/-! ## The filesystem model

A flat map from canonical absolute paths to byte contents, plus the set of
existing directories.  The operations mirror the system calls used by the
source: every path argument is resolved against the current working
directory (`os.path.abspath` semantics), which is what the kernel does when
the process touches a relative path. -/

/-- File contents are byte lists. -/
abbrev Bytes := List Nat

/-- The filesystem state. -/
structure FS where
  files : List (String × Bytes)
  dirs : List String
deriving DecidableEq

/-- The empty filesystem. -/
def FS.empty : FS := ⟨[], []⟩

/-- Content of the file at canonical absolute path `p`, if any. -/
def FS.lookupFile (fs : FS) (p : String) : Option Bytes :=
  fs.files.lookup p

/-- Translation of `os.path.isfile` for a canonical absolute path. -/
def FS.isfileAbs (fs : FS) (p : String) : Bool :=
  (fs.lookupFile p).isSome

/-- Translation of `os.path.isdir` for a canonical absolute path. -/
def FS.isdirAbs (fs : FS) (p : String) : Bool :=
  fs.dirs.contains p

/-- Create or truncate-and-write the file at canonical absolute path `p`
(`open(p, "w"/"wb")` followed by a full write). -/
def FS.setFile (fs : FS) (p : String) (c : Bytes) : FS :=
  { fs with files := (p, c) :: fs.files }

/-- Translation of `os.remove` at a canonical absolute path. -/
def FS.removeFile (fs : FS) (p : String) : FS :=
  { fs with files := fs.files.filter fun kv => ¬ kv.1 = p }

/-- Does canonical path `q` lie at or strictly below canonical path `p`? -/
def underEq (p q : String) : Bool :=
  q = p || (p ++ "/").data.isPrefixOf q.data

/-- Translation of `shutil.rmtree` at a canonical absolute path: every file and directory
at or below `p` disappears. -/
def FS.rmtree (fs : FS) (p : String) : FS :=
  { files := fs.files.filter fun kv => ¬ underEq p kv.1
    dirs := fs.dirs.filter fun d => ¬ underEq p d }

/-- Record one directory as existing. -/
def FS.addDir (fs : FS) (p : String) : FS :=
  if fs.dirs.contains p then fs else { fs with dirs := p :: fs.dirs }

/-- The chain of `'/'`-boundary ancestors of a canonical absolute path,
outermost first, ending with the path itself. -/
def ancestorChain (p : String) : List String :=
  ((splitSlash p.data).drop 1).foldl
    (fun acc comp =>
      match acc.getLast? with
      | none => ["/" ++ String.mk comp]
      | some last => acc ++ [last ++ "/" ++ String.mk comp])
    []

/-- Translation of `os.makedirs(p, exist_ok=True)` at a canonical absolute path: create
the directory and its missing ancestors. -/
def FS.makedirs (fs : FS) (p : String) : FS :=
  (ancestorChain p).foldl FS.addDir (fs.addDir p)

/-- Resolution of a syntactic path through the working directory: the
canonical key the kernel would use. -/
def resolve (cwd p : String) : String :=
  absPathS cwd p

/-- Translation of `os.path.isfile(p)` as executed by a process whose working directory
is `cwd`. -/
def FS.isfile (fs : FS) (cwd p : String) : Bool :=
  fs.isfileAbs (resolve cwd p)

/-! ## Library collaborators

`zipfile`, `json` and `base64` are standard-library collaborators; the
module under verification only observes them through the following
interface.  `zipParse b = none` models `zipfile.BadZipFile`;
`jsonParse b = none` models any exception out of
`json.loads(b.decode("utf-8"))`; `b64decode s = none` models `binascii`
errors out of `base64.b64decode(s, validate=True)`. -/

/-- One zip archive member as surfaced by `ZipFile.infolist`, with the
bytes its extraction would yield. -/
structure ZEntry where
  filename : String
  content : Bytes
deriving DecidableEq

/-- Translation of `ZipInfo.is_dir()`: a member is a directory entry iff its name ends
with a slash. -/
def ZEntry.isDirEntry (e : ZEntry) : Bool :=
  "/".data.isSuffixOf e.filename.data

/-- The bundle of standard-library behaviors the module calls into. -/
structure PyLibs where
  zipParse : Bytes → Option (List ZEntry)
  zipWrite : List ZEntry → Bytes
  jsonParse : Bytes → Option Json
  jsonDump : Json → Bytes
  b64encode : Bytes → String
  b64decode : String → Option Bytes

/-! ## The module under verification -/

/-- Translation of `OAUTH1_TOKEN_FILENAME`. -/
def OAUTH1_TOKEN_FILENAME : String := "oauth1_token.json"

/-- Translation of `OAUTH2_TOKEN_FILENAME`. -/
def OAUTH2_TOKEN_FILENAME : String := "oauth2_token.json"

/-- Translation of `token_store_ready(directory)`. -/
def token_store_ready (cwd : String) (fs : FS) (directory : String) : Bool :=
  fs.isfile cwd (pathJoinS directory OAUTH1_TOKEN_FILENAME)
    && fs.isfile cwd (pathJoinS directory OAUTH2_TOKEN_FILENAME)

/-- Translation of `_write_json(path, payload)`. -/
def write_json (L : PyLibs) (cwd : String) (fs : FS) (path : String) (payload : Json) : FS :=
  fs.setFile (resolve cwd path) (L.jsonDump payload)

/-- Translation of `hydrate_token_store_from_legacy_file(path, directory)`.  The source
swallows every read/parse exception (`return` from the `except` arm), so
the translation is a total function on the filesystem. -/
def hydrate_token_store_from_legacy_file (L : PyLibs) (cwd : String) (fs : FS)
    (path directory : String) : FS :=
  if ¬ fs.isfile cwd path then fs
  else
    match fs.lookupFile (resolve cwd path) with
    | none => fs
    | some content =>
      match L.jsonParse content with
      | some (Json.obj kvs) =>
        let fs1 :=
          match kvs.lookup "oauth1_token" with
          | some (Json.obj o1) =>
            write_json L cwd fs (pathJoinS directory OAUTH1_TOKEN_FILENAME) (Json.obj o1)
          | _ => fs
        match kvs.lookup "oauth2_token" with
        | some (Json.obj o2) =>
          write_json L cwd fs1 (pathJoinS directory OAUTH2_TOKEN_FILENAME) (Json.obj o2)
        | _ => fs1
      | _ => fs

/-- Translation of `_clear_and_prepare_dir(path)`. -/
def clear_and_prepare_dir (cwd : String) (fs : FS) (path : String) : FS :=
  let abs := resolve cwd path
  let fs1 :=
    if fs.isfileAbs abs then fs.removeFile abs
    else if fs.isdirAbs abs then fs.rmtree abs
    else fs
  fs1.makedirs abs

/-- The error message raised for a zip-slip attempt (`ValueError` in the
source; `UnsafeArchiveEntryError` in the specification). -/
def unsafeEntryMsg (rawName : String) : String :=
  "Unsafe token store archive entry: " ++ rawName

/-- The per-entry loop of `_safe_extract_zip`, with `targetAbs` already
resolved.  Returns the filesystem reached together with `some message`
when a `ValueError` was raised (processing stops there). -/
def extractLoop (cwd targetAbs : String) (fs : FS) : List ZEntry → FS × Option String
  | [] => (fs, none)
  | e :: rest =>
    let rawName := e.filename
    if rawName = "" then extractLoop cwd targetAbs fs rest
    else
      let normalizedName := String.mk (replaceBackslashes rawName.data)
      if "/".data.isPrefixOf normalizedName.data || "../".data.isPrefixOf normalizedName.data then
        (fs, some (unsafeEntryMsg rawName))
      else if containsSub "/../".data normalizedName.data || normalizedName = ".." then
        (fs, some (unsafeEntryMsg rawName))
      else
        let destination := absPathS cwd (pathJoinS targetAbs normalizedName)
        if ¬ destination = targetAbs ∧ ¬ (targetAbs ++ "/").data.isPrefixOf destination.data then
          (fs, some (unsafeEntryMsg rawName))
        else if e.isDirEntry then
          extractLoop cwd targetAbs (fs.makedirs destination) rest
        else
          extractLoop cwd targetAbs
            ((fs.makedirs (dirnameS destination)).setFile destination e.content) rest

/-- Translation of `_safe_extract_zip(archive, target_dir)`. -/
def safe_extract_zip (cwd : String) (fs : FS) (targetDir : String)
    (entries : List ZEntry) : FS × Option String :=
  extractLoop cwd (absPathS cwd targetDir) fs entries

/-- The body of the `isinstance(payload, dict)` arm of
`write_token_store_bytes`: the four legacy-fallback decoding rules,
applied in source order to the parsed payload object `kvs`. -/
def legacy_fallback_writes (L : PyLibs) (cwd : String) (fs0 : FS)
    (kvs : List (String × Json)) (token_store_path : String) : FS :=
  let fs1 :=
    match kvs.lookup "oauth1_token" with
    | some (Json.obj o1) =>
      write_json L cwd fs0 (pathJoinS token_store_path OAUTH1_TOKEN_FILENAME) (Json.obj o1)
    | _ => fs0
  let fs2 :=
    match kvs.lookup "oauth2_token" with
    | some (Json.obj o2) =>
      write_json L cwd fs1 (pathJoinS token_store_path OAUTH2_TOKEN_FILENAME) (Json.obj o2)
    | _ => fs1
  let fs3 :=
    if (kvs.lookup "oauth_token").isSome ∧ (kvs.lookup "oauth_token_secret").isSome then
      write_json L cwd fs2 (pathJoinS token_store_path OAUTH1_TOKEN_FILENAME) (Json.obj kvs)
    else fs2
  if (kvs.lookup "access_token").isSome then
    write_json L cwd fs3 (pathJoinS token_store_path OAUTH2_TOKEN_FILENAME) (Json.obj kvs)
  else fs3

/-- Translation of `write_token_store_bytes(token_bytes, token_store_path)`.  The result
pairs the filesystem reached with either `.ok` of the returned path or
`.error` of the propagated exception message; only `zipfile.BadZipFile`
is caught by the source, so an extraction `ValueError` propagates. -/
def write_token_store_bytes (L : PyLibs) (cwd : String) (fs : FS)
    (token_bytes : Bytes) (token_store_path : String) : FS × Except String String :=
  let fs0 := clear_and_prepare_dir cwd fs token_store_path
  match L.zipParse token_bytes with
  | some entries =>
    match safe_extract_zip cwd fs0 token_store_path entries with
    | (fs1, some msg) => (fs1, Except.error msg)
    | (fs1, none) => (fs1, Except.ok token_store_path)
  | none =>
    match L.jsonParse token_bytes with
    | some (Json.obj kvs) =>
      (legacy_fallback_writes L cwd fs0 kvs token_store_path, Except.ok token_store_path)
    | _ => (fs0, Except.ok token_store_path)

/-- Translation of `decode_token_store_b64(encoded)`. -/
def decode_token_store_b64 (L : PyLibs) (encoded : String) : Except String Bytes :=
  match L.b64decode encoded with
  | some bs => Except.ok bs
  | none => Except.error "Invalid Garmin token_store_b64 value"

/-! ## The encoder side

`encode_token_store_dir_as_zip_b64` walks a directory with `os.walk`.  The
directory being walked is represented as a tree; the order of the `files`
and subdirectory lists at each node is the (arbitrary) `os.listdir` order
of that level, so two runs of the encoder over the same physical directory
are two calls over trees equal up to permutation at each node.  `os.walk`
yields each level's regular files (the source sorts those names) and then
recurses into the subdirectories in listdir order (the source does not
sort `_dirs`). -/

mutual

/-- A directory tree: regular files (name, bytes) and subdirectories, each
list in `os.listdir` order. -/
inductive DirTree where
  | node (files : List (String × Bytes)) (subdirs : DirList) : DirTree

/-- The subdirectories of one level, in `os.listdir` order. -/
inductive DirList where
  | nil : DirList
  | cons (name : String) (tree : DirTree) (rest : DirList) : DirList

end

/-- Files of a node. -/
def DirTree.filesOf : DirTree → List (String × Bytes)
  | .node fsx _ => fsx

/-- Subdirectories of a node. -/
def DirTree.subdirsOf : DirTree → DirList
  | .node _ sds => sds

/-- A subdirectory list as an ordinary list. -/
def DirList.toList : DirList → List (String × DirTree)
  | .nil => []
  | .cons n t r => (n, t) :: r.toList

/-- Python's `<` on strings: lexicographic comparison of code points,
a proper prefix comparing less. -/
def charListLt : List Char → List Char → Bool
  | _, [] => false
  | [], _ :: _ => true
  | a :: as, b :: bs =>
    if a.toNat < b.toNat then true
    else if b.toNat < a.toNat then false
    else charListLt as bs

/-- Python's `<=` on strings. -/
def nameLe (a b : String) : Bool :=
  ! charListLt b.data a.data

/-- The `≤` ordering `sorted` uses, as a decidable relation. -/
def nameLeP (a b : String) : Prop :=
  nameLe a b = true

instance : DecidableRel nameLeP := fun a b => instDecidableEqBool _ _

/-- Translation of `sorted` on a list of names (Python sorts `str` lexicographically by
code point). -/
def sortedNames (ns : List String) : List String :=
  ns.insertionSort nameLeP

/-- Translation of `os.path.relpath(os.path.join(root, filename), directory)` for a file
reached through the component chain `rel`. -/
def relJoin (rel name : String) : String :=
  if rel = "" then name else rel ++ "/" ++ name

mutual

/-- The archive members produced by the `os.walk` loop of
`encode_token_store_dir_as_zip_b64`, in the order `archive.write` is
called: the current level's files in sorted-name order, then each
subdirectory's members, subdirectories in listdir order (the source sorts
`files` but not `_dirs`). -/
def encodeEntries (rel : String) : DirTree → List ZEntry
  | .node fsx sds =>
    (sortedNames (fsx.map Prod.fst)).map
      (fun n => ⟨relJoin rel n, (fsx.lookup n).getD []⟩)
      ++ encodeSubdirs rel sds

/-- Members contributed by a list of subdirectories, in listdir order. -/
def encodeSubdirs (rel : String) : DirList → List ZEntry
  | .nil => []
  | .cons name t rest => encodeEntries (relJoin rel name) t ++ encodeSubdirs rel rest

end

/-- Translation of `encode_token_store_dir_as_zip_b64(directory)`: `.error` models the
`RuntimeError` raised when the serialized archive is empty. -/
def encode_token_store_dir_as_zip_b64 (L : PyLibs) (tree : DirTree) :
    Except String String :=
  let data := L.zipWrite (encodeEntries "" tree)
  if data = [] then Except.error "Generated Garmin token store archive was empty."
  else Except.ok (L.b64encode data)

mutual

/-- Does a directory tree contain no regular file at all? -/
def DirTree.noFiles : DirTree → Bool
  | .node fsx sds => fsx.isEmpty && sds.noFilesL

/-- Predicate `noFiles` over a subdirectory list. -/
def DirList.noFilesL : DirList → Bool
  | .nil => true
  | .cons _ t rest => t.noFiles && rest.noFilesL

end

/-! ## Derived notions used by the statements -/

/-- The conjunction of the source's three per-entry rejection tests, as a
Boolean: name-based tests on the backslash-normalized name, plus the
containment test on the resolved absolute destination. -/
def entryRejectedB (cwd targetAbs : String) (e : ZEntry) : Bool :=
  let n := String.mk (replaceBackslashes e.filename.data)
  "/".data.isPrefixOf n.data || "../".data.isPrefixOf n.data
    || containsSub "/../".data n.data || n == ".."
    || (let destination := absPathS cwd (pathJoinS targetAbs n)
        !(destination == targetAbs)
          && !((targetAbs ++ "/").data.isPrefixOf destination.data))

/-- An archive entry the source rejects with `ValueError`
(`UnsafeArchiveEntryError`). -/
def EntryRejected (cwd targetAbs : String) (e : ZEntry) : Prop :=
  entryRejectedB cwd targetAbs e = true

instance (cwd targetAbs : String) (e : ZEntry) :
    Decidable (EntryRejected cwd targetAbs e) := by
  unfold EntryRejected
  infer_instance

/-- The resolved absolute destination the source computes for an entry. -/
def entryDest (cwd targetAbs : String) (e : ZEntry) : String :=
  absPathS cwd (pathJoinS targetAbs (String.mk (replaceBackslashes e.filename.data)))

/-! ## Basic filesystem lemmas -/

theorem FS.lookupFile_setFile_self (fs : FS) (p : String) (c : Bytes) :
    (fs.setFile p c).lookupFile p = some c := by
  simp [FS.setFile, FS.lookupFile, List.lookup]

theorem FS.lookupFile_setFile_ne (fs : FS) (p q : String) (c : Bytes) (h : q ≠ p) :
    (fs.setFile p c).lookupFile q = fs.lookupFile q := by
  simp only [FS.setFile, FS.lookupFile, List.lookup]
  rw [show (q == p) = false by simpa using h]

theorem FS.lookupFile_addDir (fs : FS) (d q : String) :
    (fs.addDir d).lookupFile q = fs.lookupFile q := by
  unfold FS.addDir
  split <;> rfl

theorem FS.lookupFile_foldl_addDir (l : List String) (fs : FS) (q : String) :
    (l.foldl FS.addDir fs).lookupFile q = fs.lookupFile q := by
  induction l generalizing fs with
  | nil => rfl
  | cons a l ih => rw [List.foldl_cons, ih, FS.lookupFile_addDir]

theorem FS.lookupFile_makedirs (fs : FS) (d q : String) :
    (fs.makedirs d).lookupFile q = fs.lookupFile q := by
  unfold FS.makedirs
  rw [FS.lookupFile_foldl_addDir, FS.lookupFile_addDir]

/-! ## Lemmas about `_safe_extract_zip` -/

theorem extractLoop_cons_raises (cwd tA : String) (fs : FS) (e : ZEntry)
    (rest : List ZEntry) (hne : e.filename ≠ "") (hu : EntryRejected cwd tA e) :
    extractLoop cwd tA fs (e :: rest) = (fs, some (unsafeEntryMsg e.filename)) := by
  unfold EntryRejected entryRejectedB at hu
  simp only [Bool.or_eq_true, Bool.and_eq_true, Bool.not_eq_true', beq_iff_eq,
    beq_eq_false_iff_ne] at hu
  by_cases hA : ("/".data.isPrefixOf (String.mk (replaceBackslashes e.filename.data)).data
      || "../".data.isPrefixOf (String.mk (replaceBackslashes e.filename.data)).data) = true
  · simp [extractLoop, hne, hA]
  · by_cases hB : (containsSub "/../".data (String.mk (replaceBackslashes e.filename.data)).data
        || decide (String.mk (replaceBackslashes e.filename.data) = "..")) = true
    · simp [extractLoop, hne, hA, hB]
    · have hC1 : ¬ absPathS cwd
          (pathJoinS tA (String.mk (replaceBackslashes e.filename.data))) = tA := by
        rcases hu with ((((hu | hu) | hu) | hu) | hu)
        · exact absurd (by simp [hu]) hA
        · exact absurd (by simp [hu]) hA
        · exact absurd (by simp [hu]) hB
        · exact absurd (by simp [hu]) hB
        · exact hu.1
      have hC2 : ((tA ++ "/").data.isPrefixOf (absPathS cwd
          (pathJoinS tA (String.mk (replaceBackslashes e.filename.data)))).data) = false := by
        rcases hu with ((((hu | hu) | hu) | hu) | hu)
        · exact absurd (by simp [hu]) hA
        · exact absurd (by simp [hu]) hA
        · exact absurd (by simp [hu]) hB
        · exact absurd (by simp [hu]) hB
        · exact hu.2
      have hdata : (tA ++ "/").data = tA.data ++ ['/'] := by simp
      have hC2' : ¬ (tA.data ++ ['/'] <+: (absPathS cwd
          (pathJoinS tA (String.mk (replaceBackslashes e.filename.data)))).data) := by
        rw [← hdata, ← List.isPrefixOf_iff_prefix, hC2]
        simp
      simp [extractLoop, hne, hA, hB, hC1, hC2']

theorem entryRejected_iff (cwd tA : String) (e : ZEntry) :
    EntryRejected cwd tA e ↔
      (("/".data.isPrefixOf (String.mk (replaceBackslashes e.filename.data)).data
          || "../".data.isPrefixOf (String.mk (replaceBackslashes e.filename.data)).data) = true)
      ∨ ((containsSub "/../".data (String.mk (replaceBackslashes e.filename.data)).data
          || decide (String.mk (replaceBackslashes e.filename.data) = "..")) = true)
      ∨ (¬ absPathS cwd (pathJoinS tA (String.mk (replaceBackslashes e.filename.data))) = tA
          ∧ ¬ ((tA ++ "/").data.isPrefixOf (absPathS cwd
              (pathJoinS tA (String.mk (replaceBackslashes e.filename.data)))).data = true)) := by
  unfold EntryRejected entryRejectedB
  simp only [Bool.or_eq_true, Bool.and_eq_true, Bool.not_eq_true', beq_iff_eq,
    beq_eq_false_iff_ne, decide_eq_true_eq, Bool.not_eq_true]
  constructor
  · rintro ((((h | h) | h) | h) | h)
    · exact Or.inl (Or.inl h)
    · exact Or.inl (Or.inr h)
    · exact Or.inr (Or.inl (Or.inl h))
    · exact Or.inr (Or.inl (Or.inr h))
    · exact Or.inr (Or.inr ⟨h.1, by simpa using h.2⟩)
  · rintro ((h | h) | (h | h) | ⟨h1, h2⟩)
    · exact Or.inl (Or.inl (Or.inl (Or.inl h)))
    · exact Or.inl (Or.inl (Or.inl (Or.inr h)))
    · exact Or.inl (Or.inl (Or.inr h))
    · exact Or.inl (Or.inr h)
    · exact Or.inr ⟨h1, h2⟩

theorem extractLoop_cons_skip (cwd tA : String) (fs : FS) (a : ZEntry)
    (rest : List ZEntry) (ha0 : a.filename = "") :
    extractLoop cwd tA fs (a :: rest) = extractLoop cwd tA fs rest := by
  simp [extractLoop, ha0]

theorem extractLoop_cons_safe (cwd tA : String) (fs : FS) (a : ZEntry)
    (rest : List ZEntry) (ha0 : a.filename ≠ "") (hau : ¬ EntryRejected cwd tA a) :
    extractLoop cwd tA fs (a :: rest) =
      if a.isDirEntry then
        extractLoop cwd tA (fs.makedirs (entryDest cwd tA a)) rest
      else
        extractLoop cwd tA
          ((fs.makedirs (dirnameS (entryDest cwd tA a))).setFile
            (entryDest cwd tA a) a.content) rest := by
  rw [entryRejected_iff] at hau
  push_neg at hau
  obtain ⟨h1, h2, h3⟩ := hau
  conv_lhs => rw [extractLoop]
  rw [if_neg ha0, if_neg h1, if_neg h2, if_neg (fun hc => hc.2 (h3 hc.1))]
  rfl

theorem dest_underEq_of_safe (cwd tA : String) (a : ZEntry)
    (hau : ¬ EntryRejected cwd tA a) : underEq tA (entryDest cwd tA a) = true := by
  rw [entryRejected_iff] at hau
  push_neg at hau
  obtain ⟨_, _, h3⟩ := hau
  by_cases hdt : absPathS cwd (pathJoinS tA (String.mk (replaceBackslashes a.filename.data))) = tA
  · simp [underEq, entryDest, hdt]
  · have hp := h3 hdt
    have hp' : (tA.data ++ ['/']) <+:
        (absPathS cwd (pathJoinS tA (String.mk (replaceBackslashes a.filename.data)))).data := by
      rw [← List.isPrefixOf_iff_prefix]
      simpa using hp
    simp [underEq, entryDest, hdt, hp']

theorem extractLoop_isSome_of_bad (cwd tA : String) (entries : List ZEntry) :
    ∀ fs : FS, (∃ e ∈ entries, e.filename ≠ "" ∧ EntryRejected cwd tA e) →
      ((extractLoop cwd tA fs entries).2.isSome = true) := by
  induction entries with
  | nil =>
    rintro fs ⟨e, he, -⟩
    simp at he
  | cons a rest ih =>
    rintro fs ⟨e, he, hne, hu⟩
    by_cases ha0 : a.filename = ""
    · rw [extractLoop_cons_skip cwd tA fs a rest ha0]
      refine ih fs ⟨e, ?_, hne, hu⟩
      rcases List.mem_cons.mp he with rfl | h
      · exact absurd ha0 hne
      · exact h
    · by_cases hau : EntryRejected cwd tA a
      · rw [extractLoop_cons_raises cwd tA fs a rest ha0 hau]
        rfl
      · rw [extractLoop_cons_safe cwd tA fs a rest ha0 hau]
        have he' : e ∈ rest := by
          rcases List.mem_cons.mp he with rfl | h
          · exact absurd hu hau
          · exact h
        by_cases hd : a.isDirEntry
        · rw [if_pos hd]
          exact ih _ ⟨e, he', hne, hu⟩
        · rw [if_neg hd]
          exact ih _ ⟨e, he', hne, hu⟩

theorem extractLoop_lookup_sub (cwd tA : String) (entries : List ZEntry) :
    ∀ (fs : FS) (q : String) (c : Bytes),
      (extractLoop cwd tA fs entries).1.lookupFile q = some c →
      fs.lookupFile q = some c ∨ underEq tA q = true := by
  induction entries with
  | nil => exact fun fs q c h => Or.inl h
  | cons a rest ih =>
    intro fs q c h
    by_cases ha0 : a.filename = ""
    · rw [extractLoop_cons_skip cwd tA fs a rest ha0] at h
      exact ih fs q c h
    · by_cases hau : EntryRejected cwd tA a
      · rw [extractLoop_cons_raises cwd tA fs a rest ha0 hau] at h
        exact Or.inl h
      · rw [extractLoop_cons_safe cwd tA fs a rest ha0 hau] at h
        by_cases hd : a.isDirEntry
        · rw [if_pos hd] at h
          rcases ih _ q c h with h' | h'
          · rw [FS.lookupFile_makedirs] at h'
            exact Or.inl h'
          · exact Or.inr h'
        · rw [if_neg hd] at h
          rcases ih _ q c h with h' | h'
          · by_cases hq : q = entryDest cwd tA a
            · subst hq
              exact Or.inr (dest_underEq_of_safe cwd tA a hau)
            · rw [FS.lookupFile_setFile_ne _ _ _ _ hq, FS.lookupFile_makedirs] at h'
              exact Or.inl h'
          · exact Or.inr h'

/-- C1: Safe extraction rejects traversal attempts and never writes a
file outside the target root.  The three conjuncts state: (i) when the loop
reaches an entry with a nonempty name that fails one of the source's
checks — normalized name starting with `/` or `../`, containing `/../`,
equal to `..`, or whose resolved absolute destination is neither the target
root nor strictly inside it past a `/` boundary — extraction stops right
there with the `ValueError` (`UnsafeArchiveEntryError`), leaving the
filesystem exactly as it was, so no bytes are written for that entry nor
for any later one; (ii) an archive containing any such entry always makes
extraction return the error; (iii) in every outcome, any file present
afterwards was either present before or lies at or below the target
root. -/
theorem C1_safe_extraction :
    (∀ (cwd : String) (fs : FS) (targetDir : String) (e : ZEntry) (rest : List ZEntry),
        e.filename ≠ "" → EntryRejected cwd (absPathS cwd targetDir) e →
        safe_extract_zip cwd fs targetDir (e :: rest)
          = (fs, some (unsafeEntryMsg e.filename)))
    ∧ (∀ (cwd : String) (fs : FS) (targetDir : String) (entries : List ZEntry),
        (∃ e ∈ entries, e.filename ≠ "" ∧ EntryRejected cwd (absPathS cwd targetDir) e) →
        ((safe_extract_zip cwd fs targetDir entries).2.isSome = true))
    ∧ (∀ (cwd : String) (fs : FS) (targetDir : String) (entries : List ZEntry)
        (q : String) (c : Bytes),
        (safe_extract_zip cwd fs targetDir entries).1.lookupFile q = some c →
        fs.lookupFile q = some c ∨ underEq (absPathS cwd targetDir) q = true) := by
  refine ⟨?_, ?_, ?_⟩
  · intro cwd fs targetDir e rest hne hu
    exact extractLoop_cons_raises cwd (absPathS cwd targetDir) fs e rest hne hu
  · intro cwd fs targetDir entries hex
    exact extractLoop_isSome_of_bad cwd (absPathS cwd targetDir) entries fs hex
  · intro cwd fs targetDir entries q c h
    exact extractLoop_lookup_sub cwd (absPathS cwd targetDir) entries fs q c h

/-- Witness for C1: the archive `[../evil.txt]` from the module's own test
suite is rejected immediately, with the filesystem untouched, and in
particular no `evil.txt` exists outside the target root. -/
theorem C1_safe_extraction_witness :
    safe_extract_zip "/tmp" FS.empty "/tmp/store" [⟨"../evil.txt", [1, 2]⟩]
        = (FS.empty, some (unsafeEntryMsg "../evil.txt"))
      ∧ FS.empty.lookupFile "/tmp/evil.txt" = none := by
  refine ⟨C1_safe_extraction.1 "/tmp" FS.empty "/tmp/store" ⟨"../evil.txt", [1, 2]⟩ []
    (by decide) (by decide), rfl⟩

/-- C3: When the input bytes parse as a valid zip archive, the legacy
JSON fallback is never consulted: the result of `write_token_store_bytes`
is the same for any two library bundles agreeing on the zip parse of the
input (their `json` behaviors are arbitrary), and when safe extraction
raises, that error propagates out of `write_token_store_bytes` instead of
being downgraded. -/
theorem C3_valid_zip_never_legacy :
    ∀ (L M : PyLibs) (cwd : String) (fs : FS) (b : Bytes) (target : String)
      (entries : List ZEntry),
      L.zipParse b = some entries → M.zipParse b = some entries →
      (write_token_store_bytes L cwd fs b target
          = write_token_store_bytes M cwd fs b target)
      ∧ (∀ (fs1 : FS) (msg : String),
          safe_extract_zip cwd (clear_and_prepare_dir cwd fs target) target entries
            = (fs1, some msg) →
          write_token_store_bytes L cwd fs b target = (fs1, Except.error msg)) := by
  intro L M cwd fs b target entries hL hM
  constructor
  · simp only [write_token_store_bytes, hL, hM]
  · intro fs1 msg hext
    simp only [write_token_store_bytes, hL, hext]

/-- Witness for C3: a concrete bundle whose zip parse yields the
`../evil.txt` archive, next to a second bundle with different `json`
behavior; the outcome is identical and the extraction error surfaces. -/
theorem C3_valid_zip_never_legacy_witness :
    write_token_store_bytes
        ⟨fun _ => some [⟨"../evil.txt", [1]⟩], fun _ => [],
          fun _ => some (Json.obj [("oauth1_token", Json.obj [])]),
          fun _ => [5], fun _ => "", fun _ => none⟩ "/" FS.empty [0] "/t"
      = write_token_store_bytes
        ⟨fun _ => some [⟨"../evil.txt", [1]⟩], fun _ => [],
          fun _ => none, fun _ => [7], fun _ => "", fun _ => none⟩ "/" FS.empty [0] "/t"
    ∧ write_token_store_bytes
        ⟨fun _ => some [⟨"../evil.txt", [1]⟩], fun _ => [],
          fun _ => some (Json.obj [("oauth1_token", Json.obj [])]),
          fun _ => [5], fun _ => "", fun _ => none⟩ "/" FS.empty [0] "/t"
      = (⟨[], ["/t"]⟩, Except.error (unsafeEntryMsg "../evil.txt")) := by
  refine ⟨(C3_valid_zip_never_legacy _ _ "/" FS.empty [0] "/t" [⟨"../evil.txt", [1]⟩]
      rfl rfl).1,
    (C3_valid_zip_never_legacy
      ⟨fun _ => some [⟨"../evil.txt", [1]⟩], fun _ => [],
        fun _ => some (Json.obj [("oauth1_token", Json.obj [])]),
        fun _ => [5], fun _ => "", fun _ => none⟩
      ⟨fun _ => some [⟨"../evil.txt", [1]⟩], fun _ => [],
        fun _ => none, fun _ => [7], fun _ => "", fun _ => none⟩
      "/" FS.empty [0] "/t" [⟨"../evil.txt", [1]⟩]
      rfl rfl).2 ⟨[], ["/t"]⟩ (unsafeEntryMsg "../evil.txt") (by decide)⟩

/-! ## Lemmas about `_clear_and_prepare_dir` and `write_token_store_bytes` -/

/-- Well-formedness of a filesystem state: every proper `/`-boundary
ancestor of an existing file is an existing directory and not itself a
file.  Every state reachable through actual system calls satisfies
this. -/
def FS.WF (fs : FS) : Prop :=
  ∀ q : String, ((fs.lookupFile q).isSome = true) →
    ∀ p : String, ((p ++ "/").data.isPrefixOf q.data = true) →
      fs.isdirAbs p = true ∧ fs.lookupFile p = none

theorem lookup_cons_self {β : Type} (q : String) (v : β) (t : List (String × β)) :
    List.lookup q ((q, v) :: t) = some v := by
  simp [List.lookup]

theorem lookup_cons_of_ne {β : Type} (k q : String) (v : β) (t : List (String × β))
    (h : q ≠ k) : List.lookup q ((k, v) :: t) = List.lookup q t := by
  simp only [List.lookup]
  rw [show (q == k) = false by simpa using h]

theorem lookup_filter_key_none (l : List (String × Bytes)) (q : String)
    (P : String × Bytes → Bool) (hP : ∀ c, P (q, c) = false) :
    (l.filter P).lookup q = none := by
  induction l with
  | nil => rfl
  | cons kv t ih =>
    obtain ⟨k, v⟩ := kv
    by_cases hk : P (k, v) = true
    · rw [List.filter_cons_of_pos hk]
      by_cases hqk : q = k
      · subst hqk
        rw [hP v] at hk
        cases hk
      · rw [lookup_cons_of_ne _ _ _ _ hqk]
        exact ih
    · rw [List.filter_cons_of_neg hk]
      exact ih

theorem lookup_filter_isSome_mono (l : List (String × Bytes)) (q : String)
    (P : String × Bytes → Bool) (c : Bytes) (h : (l.filter P).lookup q = some c) :
    (l.lookup q).isSome = true := by
  induction l with
  | nil => simp [List.filter] at h
  | cons kv t ih =>
    obtain ⟨k, v⟩ := kv
    by_cases hqk : q = k
    · subst hqk
      rw [lookup_cons_self]
      rfl
    · rw [lookup_cons_of_ne _ _ _ _ hqk]
      by_cases hk : P (k, v) = true
      · rw [List.filter_cons_of_pos hk, lookup_cons_of_ne _ _ _ _ hqk] at h
        exact ih h
      · rw [List.filter_cons_of_neg hk] at h
        exact ih h

theorem FS.lookupFile_removeFile_self (fs : FS) (p : String) :
    (fs.removeFile p).lookupFile p = none := by
  unfold FS.removeFile FS.lookupFile
  apply lookup_filter_key_none
  intro c
  simp

theorem FS.isdirAbs_addDir_self (fs : FS) (p : String) :
    (fs.addDir p).isdirAbs p = true := by
  unfold FS.addDir FS.isdirAbs
  split
  · assumption
  · simp [List.contains_cons]

theorem FS.isdirAbs_addDir_mono (fs : FS) (d p : String)
    (h : fs.isdirAbs p = true) : (fs.addDir d).isdirAbs p = true := by
  unfold FS.isdirAbs at h
  unfold FS.addDir FS.isdirAbs
  split
  · exact h
  · simp only [List.contains_cons]
    rw [h]
    simp

theorem FS.isdirAbs_foldl_addDir_mono (l : List String) (fs : FS) (p : String)
    (h : fs.isdirAbs p = true) : (l.foldl FS.addDir fs).isdirAbs p = true := by
  induction l generalizing fs with
  | nil => exact h
  | cons a t ih => exact ih _ (FS.isdirAbs_addDir_mono fs a p h)

theorem FS.isdirAbs_makedirs_self (fs : FS) (p : String) :
    (fs.makedirs p).isdirAbs p = true := by
  unfold FS.makedirs
  exact FS.isdirAbs_foldl_addDir_mono _ _ _ (FS.isdirAbs_addDir_self fs p)

theorem clear_isdir (cwd : String) (fs : FS) (target : String) :
    (clear_and_prepare_dir cwd fs target).isdirAbs (resolve cwd target) = true := by
  unfold clear_and_prepare_dir
  exact FS.isdirAbs_makedirs_self _ _

theorem underEq_cases (p q : String) (h : underEq p q = true) :
    q = p ∨ (p ++ "/").data.isPrefixOf q.data = true := by
  unfold underEq at h
  simp only [Bool.or_eq_true, decide_eq_true_eq] at h
  rcases h with h | h
  · exact Or.inl h
  · exact Or.inr h

theorem clear_lookup_none (cwd : String) (fs : FS) (target q : String)
    (hwf : FS.WF fs) (hq : underEq (resolve cwd target) q = true) :
    (clear_and_prepare_dir cwd fs target).lookupFile q = none := by
  unfold clear_and_prepare_dir
  rw [FS.lookupFile_makedirs]
  by_cases hf : fs.isfileAbs (resolve cwd target) = true
  · rw [if_pos hf]
    rcases underEq_cases _ _ hq with hqt | hqt
    · subst hqt
      exact FS.lookupFile_removeFile_self fs _
    · rcases hcon : (fs.removeFile (resolve cwd target)).lookupFile q with _ | c
      · rfl
      · exfalso
        have hsome : (fs.lookupFile q).isSome = true :=
          lookup_filter_isSome_mono fs.files q _ c hcon
        have := (hwf q hsome (resolve cwd target) hqt).2
        rw [FS.isfileAbs, this] at hf
        simp at hf
  · rw [if_neg hf]
    by_cases hd : fs.isdirAbs (resolve cwd target) = true
    · rw [if_pos hd]
      apply lookup_filter_key_none
      intro c
      simp [hq]
    · rw [if_neg hd]
      rcases underEq_cases _ _ hq with hqt | hqt
      · rw [hqt]
        rw [FS.isfileAbs] at hf
        rcases hcon : fs.lookupFile (resolve cwd target) with _ | c
        · rfl
        · rw [hcon] at hf
          simp at hf
      · rcases hcon : fs.lookupFile q with _ | c
        · rfl
        · exfalso
          have hsome : (fs.lookupFile q).isSome = true := by
            rw [hcon]
            rfl
          exact hd ((hwf q hsome (resolve cwd target) hqt).1)

theorem lookup_setFile_congr (fs1 fs2 : FS) (p q : String) (c : Bytes)
    (h : fs1.lookupFile q = fs2.lookupFile q) :
    (fs1.setFile p c).lookupFile q = (fs2.setFile p c).lookupFile q := by
  by_cases hq : q = p
  · subst hq
    rw [FS.lookupFile_setFile_self, FS.lookupFile_setFile_self]
  · rw [FS.lookupFile_setFile_ne _ _ _ _ hq, FS.lookupFile_setFile_ne _ _ _ _ hq]
    exact h

theorem extractLoop_congr (cwd tA : String) (entries : List ZEntry) :
    ∀ (fs1 fs2 : FS) (q : String), fs1.lookupFile q = fs2.lookupFile q →
      ((extractLoop cwd tA fs1 entries).1.lookupFile q
          = (extractLoop cwd tA fs2 entries).1.lookupFile q)
      ∧ (extractLoop cwd tA fs1 entries).2 = (extractLoop cwd tA fs2 entries).2 := by
  induction entries with
  | nil => exact fun fs1 fs2 q h => ⟨h, rfl⟩
  | cons a rest ih =>
    intro fs1 fs2 q h
    by_cases ha0 : a.filename = ""
    · rw [extractLoop_cons_skip cwd tA fs1 a rest ha0,
        extractLoop_cons_skip cwd tA fs2 a rest ha0]
      exact ih fs1 fs2 q h
    · by_cases hau : EntryRejected cwd tA a
      · rw [extractLoop_cons_raises cwd tA fs1 a rest ha0 hau,
          extractLoop_cons_raises cwd tA fs2 a rest ha0 hau]
        exact ⟨h, rfl⟩
      · rw [extractLoop_cons_safe cwd tA fs1 a rest ha0 hau,
          extractLoop_cons_safe cwd tA fs2 a rest ha0 hau]
        by_cases hd : a.isDirEntry
        · rw [if_pos hd, if_pos hd]
          exact ih _ _ q (by rw [FS.lookupFile_makedirs, FS.lookupFile_makedirs]; exact h)
        · rw [if_neg hd, if_neg hd]
          refine ih _ _ q ?_
          apply lookup_setFile_congr
          rw [FS.lookupFile_makedirs, FS.lookupFile_makedirs]
          exact h

theorem legacy_congr (L : PyLibs) (cwd : String) (fs1 fs2 : FS)
    (kvs : List (String × Json)) (target q : String)
    (h : fs1.lookupFile q = fs2.lookupFile q) :
    (legacy_fallback_writes L cwd fs1 kvs target).lookupFile q
      = (legacy_fallback_writes L cwd fs2 kvs target).lookupFile q := by
  unfold legacy_fallback_writes write_json
  rcases hA : kvs.lookup "oauth1_token" with _ | jA <;> try cases jA
  all_goals simp only [hA]
  all_goals (rcases hB : kvs.lookup "oauth2_token" with _ | jB <;> try cases jB)
  all_goals simp only [hB]
  all_goals (split <;> split <;>
    (repeat (first | exact h | apply lookup_setFile_congr)))

theorem FS.empty_WF : FS.WF FS.empty := by
  intro q hq
  simp [FS.lookupFile, FS.empty, List.lookup] at hq

theorem safe_extract_congr (cwd target : String) (entries : List ZEntry)
    (fs1 fs2 : FS) (q : String) (h : fs1.lookupFile q = fs2.lookupFile q) :
    ((safe_extract_zip cwd fs1 target entries).1.lookupFile q
        = (safe_extract_zip cwd fs2 target entries).1.lookupFile q)
    ∧ (safe_extract_zip cwd fs1 target entries).2
        = (safe_extract_zip cwd fs2 target entries).2 := by
  unfold safe_extract_zip
  exact extractLoop_congr cwd (absPathS cwd target) entries fs1 fs2 q h

theorem write_bytes_indep (L : PyLibs) (cwd : String) (fs : FS) (b : Bytes)
    (target q : String) (hwf : FS.WF fs) (hq : underEq (resolve cwd target) q = true) :
    ((write_token_store_bytes L cwd fs b target).1.lookupFile q
        = (write_token_store_bytes L cwd FS.empty b target).1.lookupFile q)
    ∧ (write_token_store_bytes L cwd fs b target).2
        = (write_token_store_bytes L cwd FS.empty b target).2 := by
  have h0 : (clear_and_prepare_dir cwd fs target).lookupFile q
      = (clear_and_prepare_dir cwd FS.empty target).lookupFile q := by
    rw [clear_lookup_none cwd fs target q hwf hq,
      clear_lookup_none cwd FS.empty target q FS.empty_WF hq]
  unfold write_token_store_bytes
  rcases hz : L.zipParse b with _ | entries
  · simp only [hz]
    rcases hj : L.jsonParse b with _ | j
    · simp only [hj]
      exact ⟨h0, trivial⟩
    · cases j <;> simp only [hj] <;>
        first
        | exact ⟨h0, trivial⟩
        | exact h0
        | exact ⟨legacy_congr L cwd _ _ _ target q h0, trivial⟩
        | exact legacy_congr L cwd _ _ _ target q h0
  · simp only [hz]
    have hc := safe_extract_congr cwd target entries
      (clear_and_prepare_dir cwd fs target) (clear_and_prepare_dir cwd FS.empty target) q h0
    rcases hE1 : safe_extract_zip cwd (clear_and_prepare_dir cwd fs target) target entries
      with ⟨g1, r1⟩
    rcases hE2 : safe_extract_zip cwd (clear_and_prepare_dir cwd FS.empty target) target entries
      with ⟨g2, r2⟩
    rw [hE1, hE2] at hc
    obtain ⟨hg, hr⟩ := hc
    simp only at hg hr
    subst hr
    cases r1 <;> exact ⟨hg, rfl⟩

theorem write_bytes_ok_target (L : PyLibs) (cwd : String) (fs : FS) (b : Bytes)
    (target r : String) (h : (write_token_store_bytes L cwd fs b target).2 = Except.ok r) :
    r = target := by
  unfold write_token_store_bytes at h
  rcases hz : L.zipParse b with _ | entries
  · simp only [hz] at h
    rcases hj : L.jsonParse b with _ | j
    · simp only [hj] at h
      simp at h
      exact h.symm
    · cases j <;> simp only [hj] at h <;> simp at h <;> exact h.symm
  · simp only [hz] at h
    rcases hE : safe_extract_zip cwd (clear_and_prepare_dir cwd fs target) target entries
      with ⟨g, r'⟩
    rw [hE] at h
    cases r' with
    | none => simp at h; exact h.symm
    | some msg => simp at h

/-- C8: `write_token_store_bytes` first unconditionally clears the
target and returns the target path whenever it does not raise.  The four
conjuncts: (i) after `_clear_and_prepare_dir` the target exists as a
directory; (ii) on a well-formed filesystem no file remains at or below
the target after clearing — a file target is deleted, a directory target
is removed recursively, and nothing is merged; (iii) consequently the
result of `write_token_store_bytes` at or below the target — both the
files there and the raised-or-returned outcome — is independent of the
target's prior contents (compared against running from the empty
filesystem); (iv) every non-raising run returns exactly the target
path. -/
theorem C8_write_clears_and_returns_target :
    (∀ (cwd : String) (fs : FS) (target : String),
        (clear_and_prepare_dir cwd fs target).isdirAbs (resolve cwd target) = true)
    ∧ (∀ (cwd : String) (fs : FS) (target q : String), FS.WF fs →
        underEq (resolve cwd target) q = true →
        (clear_and_prepare_dir cwd fs target).lookupFile q = none)
    ∧ (∀ (L : PyLibs) (cwd : String) (fs : FS) (b : Bytes) (target q : String),
        FS.WF fs → underEq (resolve cwd target) q = true →
        ((write_token_store_bytes L cwd fs b target).1.lookupFile q
            = (write_token_store_bytes L cwd FS.empty b target).1.lookupFile q)
          ∧ (write_token_store_bytes L cwd fs b target).2
            = (write_token_store_bytes L cwd FS.empty b target).2)
    ∧ (∀ (L : PyLibs) (cwd : String) (fs : FS) (b : Bytes) (target r : String),
        (write_token_store_bytes L cwd fs b target).2 = Except.ok r → r = target) := by
  refine ⟨clear_isdir, clear_lookup_none, ?_, write_bytes_ok_target⟩
  intro L cwd fs b target q hwf hq
  exact write_bytes_indep L cwd fs b target q hwf hq

/-- Witness for C8: clearing a target directory that already holds a stale
file empties it, and a concrete non-raising run returns the target path. -/
theorem C8_write_clears_witness :
    (clear_and_prepare_dir "/" (⟨[("/t/old.json", [9])], ["/t"]⟩ : FS) "/t"
        = (⟨[], ["/t"]⟩ : FS))
    ∧ (clear_and_prepare_dir "/" FS.empty "/t").lookupFile "/t/old.json" = none
    ∧ ("/t" : String) = "/t" := by
  refine ⟨by decide,
    C8_write_clears_and_returns_target.2.1 "/" FS.empty "/t" "/t/old.json"
      FS.empty_WF (by decide),
    C8_write_clears_and_returns_target.2.2.2
      ⟨fun _ => none, fun _ => [], fun _ => none, fun _ => [], fun _ => "", fun _ => none⟩
      "/" FS.empty [0] "/t" "/t" rfl⟩

/-! ## The legacy fallback rules -/

theorem write_bytes_legacy_form (L : PyLibs) (cwd : String) (fs : FS) (b : Bytes)
    (target : String) (kvs : List (String × Json))
    (hz : L.zipParse b = none) (hj : L.jsonParse b = some (Json.obj kvs)) :
    write_token_store_bytes L cwd fs b target
      = (legacy_fallback_writes L cwd (clear_and_prepare_dir cwd fs target) kvs target,
          Except.ok target) := by
  unfold write_token_store_bytes
  simp only [hz, hj]

theorem legacy_flat_lookups (L : PyLibs) (cwd : String) (fs0 : FS)
    (kvs : List (String × Json)) (target : String)
    (h1 : (kvs.lookup "oauth_token").isSome = true)
    (h2 : (kvs.lookup "oauth_token_secret").isSome = true)
    (h3 : (kvs.lookup "access_token").isSome = true) :
    ((legacy_fallback_writes L cwd fs0 kvs target).lookupFile
        (resolve cwd (pathJoinS target OAUTH1_TOKEN_FILENAME))
          = some (L.jsonDump (Json.obj kvs)))
    ∧ ((legacy_fallback_writes L cwd fs0 kvs target).lookupFile
        (resolve cwd (pathJoinS target OAUTH2_TOKEN_FILENAME))
          = some (L.jsonDump (Json.obj kvs))) := by
  unfold legacy_fallback_writes write_json
  rw [if_pos h3, if_pos (And.intro h1 h2)]
  constructor
  · by_cases hdd : resolve cwd (pathJoinS target OAUTH1_TOKEN_FILENAME)
        = resolve cwd (pathJoinS target OAUTH2_TOKEN_FILENAME)
    · rw [hdd, FS.lookupFile_setFile_self]
    · rw [FS.lookupFile_setFile_ne _ _ _ _ hdd, FS.lookupFile_setFile_self]
  · rw [FS.lookupFile_setFile_self]

/-- C5: A non-zip input parsing as a JSON object that carries both
the flattened OAuth1 keys (`oauth_token`, `oauth_token_secret`) and the
flattened OAuth2 key (`access_token`) makes `write_token_store_bytes`
write the *entire payload object* as the content of both token files,
return the target path, and leave the store ready. -/
theorem C5_flattened_payload_populates_both :
    ∀ (L : PyLibs) (cwd : String) (fs : FS) (b : Bytes) (target : String)
      (kvs : List (String × Json)),
      L.zipParse b = none →
      L.jsonParse b = some (Json.obj kvs) →
      (kvs.lookup "oauth_token").isSome = true →
      (kvs.lookup "oauth_token_secret").isSome = true →
      (kvs.lookup "access_token").isSome = true →
      ((write_token_store_bytes L cwd fs b target).2 = Except.ok target)
      ∧ ((write_token_store_bytes L cwd fs b target).1.lookupFile
          (resolve cwd (pathJoinS target OAUTH1_TOKEN_FILENAME))
            = some (L.jsonDump (Json.obj kvs)))
      ∧ ((write_token_store_bytes L cwd fs b target).1.lookupFile
          (resolve cwd (pathJoinS target OAUTH2_TOKEN_FILENAME))
            = some (L.jsonDump (Json.obj kvs)))
      ∧ token_store_ready cwd (write_token_store_bytes L cwd fs b target).1 target = true := by
  intro L cwd fs b target kvs hz hj h1 h2 h3
  have hw := write_bytes_legacy_form L cwd fs b target kvs hz hj
  have hl := legacy_flat_lookups L cwd (clear_and_prepare_dir cwd fs target) kvs target h1 h2 h3
  rw [hw]
  refine ⟨rfl, hl.1, hl.2, ?_⟩
  unfold token_store_ready FS.isfile FS.isfileAbs
  rw [hl.1, hl.2]
  rfl

/-- Witness for C5: a concrete flattened legacy payload carrying all three
top-level keys lands, in full, in both files of a ready store. -/
theorem C5_flattened_payload_witness :
    ((write_token_store_bytes
        ⟨fun _ => none, fun _ => [],
          fun _ => some (Json.obj [("oauth_token", Json.str "a"),
            ("oauth_token_secret", Json.str "b"), ("access_token", Json.str "c")]),
          fun _ => [3], fun _ => "", fun _ => none⟩
        "/" FS.empty [0] "/t").1.lookupFile
        (resolve "/" (pathJoinS "/t" OAUTH1_TOKEN_FILENAME)) = some [3])
    ∧ token_store_ready "/"
        (write_token_store_bytes
          ⟨fun _ => none, fun _ => [],
            fun _ => some (Json.obj [("oauth_token", Json.str "a"),
              ("oauth_token_secret", Json.str "b"), ("access_token", Json.str "c")]),
            fun _ => [3], fun _ => "", fun _ => none⟩
          "/" FS.empty [0] "/t").1 "/t" = true := by
  refine ⟨(C5_flattened_payload_populates_both _ "/" FS.empty [0] "/t"
      [("oauth_token", Json.str "a"), ("oauth_token_secret", Json.str "b"),
        ("access_token", Json.str "c")] rfl rfl rfl rfl rfl).2.1,
    (C5_flattened_payload_populates_both _ "/" FS.empty [0] "/t"
      [("oauth_token", Json.str "a"), ("oauth_token_secret", Json.str "b"),
        ("access_token", Json.str "c")] rfl rfl rfl rfl rfl).2.2.2⟩

/-- C9: The flattened legacy rules fire after the sub-object rules
and overwrite their output: with both an `oauth1_token` object and the
flattened OAuth1 keys present, the OAuth1 file ends up holding the entire
payload (not the sub-object); symmetrically for `oauth2_token` together
with `access_token`. -/
theorem C9_flattened_rules_overwrite_subobjects :
    ∀ (L : PyLibs) (cwd : String) (fs : FS) (b : Bytes) (target : String)
      (kvs : List (String × Json)),
      L.zipParse b = none →
      L.jsonParse b = some (Json.obj kvs) →
      (∀ o1, kvs.lookup "oauth1_token" = some (Json.obj o1) →
        (kvs.lookup "oauth_token").isSome = true →
        (kvs.lookup "oauth_token_secret").isSome = true →
        (write_token_store_bytes L cwd fs b target).1.lookupFile
          (resolve cwd (pathJoinS target OAUTH1_TOKEN_FILENAME))
            = some (L.jsonDump (Json.obj kvs)))
      ∧ (∀ o2, kvs.lookup "oauth2_token" = some (Json.obj o2) →
        (kvs.lookup "access_token").isSome = true →
        (write_token_store_bytes L cwd fs b target).1.lookupFile
          (resolve cwd (pathJoinS target OAUTH2_TOKEN_FILENAME))
            = some (L.jsonDump (Json.obj kvs))) := by
  intro L cwd fs b target kvs hz hj
  rw [write_bytes_legacy_form L cwd fs b target kvs hz hj]
  constructor
  · intro o1 ho1 h1 h2
    simp only [legacy_fallback_writes, write_json]
    by_cases hacc : (kvs.lookup "access_token").isSome = true
    · rw [if_pos hacc, if_pos (And.intro h1 h2)]
      by_cases hdd : resolve cwd (pathJoinS target OAUTH1_TOKEN_FILENAME)
          = resolve cwd (pathJoinS target OAUTH2_TOKEN_FILENAME)
      · rw [hdd, FS.lookupFile_setFile_self]
      · rw [FS.lookupFile_setFile_ne _ _ _ _ hdd, FS.lookupFile_setFile_self]
    · rw [if_neg hacc, if_pos (And.intro h1 h2), FS.lookupFile_setFile_self]
  · intro o2 ho2 h3
    simp only [legacy_fallback_writes, write_json]
    rw [if_pos h3, FS.lookupFile_setFile_self]

/-- Witness for C9: a payload with `oauth1_token`/`oauth2_token`
sub-objects *and* all flattened keys; both files hold the dump of the
whole payload, not of the sub-objects. -/
theorem C9_flattened_rules_witness :
    ((write_token_store_bytes
        ⟨fun _ => none, fun _ => [],
          fun _ => some (Json.obj [("oauth1_token", Json.obj [("k", Json.str "v")]),
            ("oauth2_token", Json.obj []), ("oauth_token", Json.str "a"),
            ("oauth_token_secret", Json.str "b"), ("access_token", Json.str "c")]),
          fun j => match j with
            | Json.obj [("k", Json.str "v")] => [1]
            | Json.obj [] => [2]
            | _ => [9],
          fun _ => "", fun _ => none⟩
        "/" FS.empty [0] "/t").1.lookupFile
        (resolve "/" (pathJoinS "/t" OAUTH1_TOKEN_FILENAME)) = some [9])
    ∧ ((write_token_store_bytes
        ⟨fun _ => none, fun _ => [],
          fun _ => some (Json.obj [("oauth1_token", Json.obj [("k", Json.str "v")]),
            ("oauth2_token", Json.obj []), ("oauth_token", Json.str "a"),
            ("oauth_token_secret", Json.str "b"), ("access_token", Json.str "c")]),
          fun j => match j with
            | Json.obj [("k", Json.str "v")] => [1]
            | Json.obj [] => [2]
            | _ => [9],
          fun _ => "", fun _ => none⟩
        "/" FS.empty [0] "/t").1.lookupFile
        (resolve "/" (pathJoinS "/t" OAUTH2_TOKEN_FILENAME)) = some [9]) := by
  refine ⟨(C9_flattened_rules_overwrite_subobjects _ "/" FS.empty [0] "/t"
      [("oauth1_token", Json.obj [("k", Json.str "v")]), ("oauth2_token", Json.obj []),
        ("oauth_token", Json.str "a"), ("oauth_token_secret", Json.str "b"),
        ("access_token", Json.str "c")] rfl rfl).1
      [("k", Json.str "v")] rfl rfl rfl,
    (C9_flattened_rules_overwrite_subobjects _ "/" FS.empty [0] "/t"
      [("oauth1_token", Json.obj [("k", Json.str "v")]), ("oauth2_token", Json.obj []),
        ("oauth_token", Json.str "a"), ("oauth_token_secret", Json.str "b"),
        ("access_token", Json.str "c")] rfl rfl).2
      [] rfl rfl⟩

/-! ## `hydrate_token_store_from_legacy_file` -/

/-- C7: Hydration is a no-op whenever the legacy path is not a
regular file, or its content does not parse as JSON, or parses to a
non-object: the filesystem is returned unchanged (the source swallows the
exception and returns, so nothing propagates and no file is created). -/
theorem C7_hydrate_noop :
    ∀ (L : PyLibs) (cwd : String) (fs : FS) (path directory : String),
      (∀ c, fs.lookupFile (resolve cwd path) = some c →
        ∀ kvs, L.jsonParse c ≠ some (Json.obj kvs)) →
      hydrate_token_store_from_legacy_file L cwd fs path directory = fs := by
  intro L cwd fs path directory h
  unfold hydrate_token_store_from_legacy_file
  by_cases hf : fs.isfile cwd path = true
  · rw [if_neg (fun hc => hc hf)]
    rcases hlk : fs.lookupFile (resolve cwd path) with _ | c
    · exfalso
      unfold FS.isfile FS.isfileAbs at hf
      rw [hlk] at hf
      simp at hf
    · simp only [hlk]
      rcases hjp : L.jsonParse c with _ | j
      · simp only [hjp]
      · cases j <;> simp only [hjp] <;> try rfl
        exact absurd hjp (h c hlk _)
  · rw [if_pos hf]

/-- Witness for C7: hydration from a missing file, and from a file whose
bytes do not parse, both leave the filesystem untouched. -/
theorem C7_hydrate_noop_witness :
    hydrate_token_store_from_legacy_file
        ⟨fun _ => none, fun _ => [], fun _ => some (Json.obj []), fun _ => [1],
          fun _ => "", fun _ => none⟩
        "/" FS.empty "/legacy.json" "/d" = FS.empty
    ∧ hydrate_token_store_from_legacy_file
        ⟨fun _ => none, fun _ => [], fun _ => none, fun _ => [1],
          fun _ => "", fun _ => none⟩
        "/" (⟨[("/legacy.json", [0])], []⟩ : FS) "/legacy.json" "/d"
      = (⟨[("/legacy.json", [0])], []⟩ : FS) := by
  refine ⟨C7_hydrate_noop _ "/" FS.empty "/legacy.json" "/d" ?_,
    C7_hydrate_noop _ "/" (⟨[("/legacy.json", [0])], []⟩ : FS) "/legacy.json" "/d" ?_⟩
  · intro c hc
    simp [FS.lookupFile, FS.empty, List.lookup] at hc
  · intro c hc kvs h'
    simp at h'

/-- C10 (amended): Hydration writes at most the two token files of
the given directory: every other path — looked up through the same
resolution the system calls use — is unchanged, and no directory is
created.  (The claim's further assertion that the *legacy input file* is
never modified fails when the legacy path coincides with one of the two
target paths; see the counterexample.) -/
theorem C10_hydrate_frame :
    ∀ (L : PyLibs) (cwd : String) (fs : FS) (path directory q : String),
      q ≠ resolve cwd (pathJoinS directory OAUTH1_TOKEN_FILENAME) →
      q ≠ resolve cwd (pathJoinS directory OAUTH2_TOKEN_FILENAME) →
      ((hydrate_token_store_from_legacy_file L cwd fs path directory).lookupFile q
          = fs.lookupFile q)
      ∧ (hydrate_token_store_from_legacy_file L cwd fs path directory).dirs = fs.dirs := by
  intro L cwd fs path directory q h1 h2
  unfold hydrate_token_store_from_legacy_file write_json
  by_cases hf : ¬ fs.isfile cwd path = true
  · rw [if_pos hf]
    refine ⟨?_, ?_⟩ <;> first | rfl | trivial
  · rw [if_neg hf]
    rcases hlk : fs.lookupFile (resolve cwd path) with _ | c
    · simp only [hlk]
      refine ⟨?_, ?_⟩ <;> first | rfl | trivial
    · simp only [hlk]
      rcases hjp : L.jsonParse c with _ | j
      · simp only [hjp]
        refine ⟨?_, ?_⟩ <;> first | rfl | trivial
      · cases j with
        | null => simp only [hjp]; refine ⟨?_, ?_⟩ <;> first | rfl | trivial
        | bool b => simp only [hjp]; refine ⟨?_, ?_⟩ <;> first | rfl | trivial
        | num n => simp only [hjp]; refine ⟨?_, ?_⟩ <;> first | rfl | trivial
        | str s => simp only [hjp]; refine ⟨?_, ?_⟩ <;> first | rfl | trivial
        | arr xs => simp only [hjp]; refine ⟨?_, ?_⟩ <;> first | rfl | trivial
        | obj kvs =>
          simp only [hjp]
          rcases hA : kvs.lookup "oauth1_token" with _ | jA <;> try cases jA
          all_goals simp only [hA]
          all_goals (rcases hB : kvs.lookup "oauth2_token" with _ | jB <;> try cases jB)
          all_goals simp only [hB]
          all_goals first
            | refine ⟨?_, ?_⟩ <;> first | rfl | trivial
            | exact ⟨rfl, rfl⟩
            | (refine ⟨?_, rfl⟩
               repeat (first
                 | rfl
                 | rw [FS.lookupFile_setFile_ne _ _ _ _ h1]
                 | rw [FS.lookupFile_setFile_ne _ _ _ _ h2]))
            | (refine ⟨?_, trivial⟩
               repeat (first
                 | rfl
                 | rw [FS.lookupFile_setFile_ne _ _ _ _ h1]
                 | rw [FS.lookupFile_setFile_ne _ _ _ _ h2]))

/-- Witness for the amended C10: hydrating next to an unrelated file
leaves that file and the directory set untouched. -/
theorem C10_hydrate_frame_witness :
    ((hydrate_token_store_from_legacy_file
        ⟨fun _ => none, fun _ => [],
          fun _ => some (Json.obj [("oauth1_token", Json.obj []),
            ("oauth2_token", Json.obj [])]),
          fun _ => [1], fun _ => "", fun _ => none⟩
        "/" (⟨[("/other.json", [7]), ("/legacy.json", [0])], []⟩ : FS)
        "/legacy.json" "/d").lookupFile "/other.json"
      = (⟨[("/other.json", [7]), ("/legacy.json", [0])], []⟩ : FS).lookupFile "/other.json")
    ∧ (hydrate_token_store_from_legacy_file
        ⟨fun _ => none, fun _ => [],
          fun _ => some (Json.obj [("oauth1_token", Json.obj []),
            ("oauth2_token", Json.obj [])]),
          fun _ => [1], fun _ => "", fun _ => none⟩
        "/" (⟨[("/other.json", [7]), ("/legacy.json", [0])], []⟩ : FS)
        "/legacy.json" "/d").dirs
      = (⟨[("/other.json", [7]), ("/legacy.json", [0])], []⟩ : FS).dirs :=
  C10_hydrate_frame _ "/" (⟨[("/other.json", [7]), ("/legacy.json", [0])], []⟩ : FS)
    "/legacy.json" "/d" "/other.json" (by decide) (by decide)

/-- Counterexample to C10 as stated: when the legacy file *is* the
directory's `oauth1_token.json`, hydration overwrites it — the source
computes the target path with `os.path.join(directory,
OAUTH1_TOKEN_FILENAME)`, which can equal the input path.  Here the file's
content changes from the original bytes to the dump of the extracted
sub-object. -/
theorem C10_hydrate_modifies_legacy_counterexample :
    ((⟨[("/d/oauth1_token.json", [0])], []⟩ : FS).lookupFile "/d/oauth1_token.json"
        = some [0])
    ∧ ((hydrate_token_store_from_legacy_file
        ⟨fun _ => none, fun _ => [],
          fun b => if b = [0] then some (Json.obj [("oauth1_token", Json.obj [])]) else none,
          fun _ => [1], fun _ => "", fun _ => none⟩
        "/" (⟨[("/d/oauth1_token.json", [0])], []⟩ : FS)
        "/d/oauth1_token.json" "/d").lookupFile "/d/oauth1_token.json"
      = some [1]) := by
  exact ⟨by decide, by decide⟩

/-! ## Order theory for the name comparator -/

theorem charListLt_asymm : ∀ as bs, charListLt as bs = true → charListLt bs as = false := by
  intro as
  induction as with
  | nil =>
    intro bs h
    cases bs with
    | nil => cases h
    | cons b u => rfl
  | cons a t ih =>
    intro bs h
    cases bs with
    | nil => cases h
    | cons b u =>
      unfold charListLt at h ⊢
      by_cases h1 : a.toNat < b.toNat
      · rw [if_neg (by omega), if_pos h1]
      · by_cases h2 : b.toNat < a.toNat
        · rw [if_neg h1, if_pos h2] at h
          cases h
        · rw [if_neg h1, if_neg h2] at h
          rw [if_neg h2, if_neg h1]
          exact ih u h

theorem charListLt_trichot : ∀ as bs, charListLt as bs = true ∨ charListLt bs as = true ∨ as = bs := by
  intro as
  induction as with
  | nil =>
    intro bs
    cases bs with
    | nil => exact Or.inr (Or.inr rfl)
    | cons b u => exact Or.inl rfl
  | cons a t ih =>
    intro bs
    cases bs with
    | nil => exact Or.inr (Or.inl rfl)
    | cons b u =>
      by_cases h1 : a.toNat < b.toNat
      · exact Or.inl (by unfold charListLt; rw [if_pos h1])
      · by_cases h2 : b.toNat < a.toNat
        · exact Or.inr (Or.inl (by unfold charListLt; rw [if_pos h2]))
        · have hvn : a.toNat = b.toNat := by omega
          have hv : a.val = b.val := UInt32.ext hvn
          have hab : a = b := by
            cases a
            cases b
            cases hv
            rfl
          subst hab
          rcases ih u with h | h | h
          · exact Or.inl (by unfold charListLt; rw [if_neg h1, if_neg h2]; exact h)
          · exact Or.inr (Or.inl (by unfold charListLt; rw [if_neg h1, if_neg h2]; exact h))
          · exact Or.inr (Or.inr (by rw [h]))

theorem charListLt_trans : ∀ as bs cs, charListLt as bs = true → charListLt bs cs = true →
    charListLt as cs = true := by
  intro as
  induction as with
  | nil =>
    intro bs cs h1 h2
    cases cs with
    | nil =>
      cases bs with
      | nil => cases h1
      | cons b u => cases h2
    | cons c v => rfl
  | cons a t ih =>
    intro bs cs h1 h2
    cases bs with
    | nil => cases h1
    | cons b u =>
      cases cs with
      | nil => cases h2
      | cons c v =>
        unfold charListLt at h1 h2 ⊢
        by_cases hab : a.toNat < b.toNat
        · by_cases hbc : b.toNat < c.toNat
          · rw [if_pos (by omega)]
          · by_cases hcb : c.toNat < b.toNat
            · rw [if_neg hbc, if_pos hcb] at h2
              cases h2
            · have : b.toNat = c.toNat := by omega
              rw [if_pos (by omega)]
        · by_cases hba : b.toNat < a.toNat
          · rw [if_neg hab, if_pos hba] at h1
            cases h1
          · have hab' : a.toNat = b.toNat := by omega
            by_cases hbc : b.toNat < c.toNat
            · rw [if_pos (by omega)]
            · by_cases hcb : c.toNat < b.toNat
              · rw [if_neg hbc, if_pos hcb] at h2
                cases h2
              · rw [if_neg hab, if_neg hba] at h1
                rw [if_neg hbc, if_neg hcb] at h2
                rw [if_neg (by omega), if_neg (by omega)]
                exact ih u v h1 h2

instance : IsTotal String nameLeP := by
  refine ⟨fun a b => ?_⟩
  unfold nameLeP nameLe
  by_cases h : charListLt b.data a.data = true
  · have := charListLt_asymm _ _ h
    right
    simp [this]
  · left
    simp only [Bool.not_eq_true] at h
    simp [h]

instance : IsTrans String nameLeP := by
  refine ⟨fun a b c hab hbc => ?_⟩
  unfold nameLeP nameLe at hab hbc ⊢
  simp only [Bool.not_eq_true'] at hab hbc
  simp only [Bool.not_eq_true']
  by_cases h : charListLt c.data a.data = true
  · exfalso
    rcases charListLt_trichot c.data b.data with h1 | h1 | h1
    · rw [h1] at hbc
      cases hbc
    · have := charListLt_trans _ _ _ h1 h
      rw [this] at hab
      cases hab
    · rw [h1] at h
      rw [h] at hab
      cases hab
  · simp only [Bool.not_eq_true] at h
    exact h

instance : IsAntisymm String nameLeP := by
  refine ⟨fun a b hab hba => ?_⟩
  unfold nameLeP nameLe at hab hba
  simp only [Bool.not_eq_true'] at hab hba
  rcases charListLt_trichot a.data b.data with h | h | h
  · rw [h] at hba
    cases hba
  · rw [h] at hab
    cases hab
  · cases a
    cases b
    exact congrArg String.mk (by simpa using h)

/-! ## `encode_token_store_dir_as_zip_b64` on file-free trees (C4) -/

mutual

theorem encodeEntries_eq_nil (rel : String) (t : DirTree) (h : t.noFiles = true) :
    encodeEntries rel t = [] := by
  cases t with
  | node fsx sds =>
    unfold DirTree.noFiles at h
    rw [Bool.and_eq_true] at h
    have hfs : fsx = [] := by
      cases fsx
      · rfl
      · cases h.1
    subst hfs
    unfold encodeEntries
    rw [encodeSubdirs_eq_nil rel sds h.2]
    rfl

theorem encodeSubdirs_eq_nil (rel : String) (l : DirList) (h : l.noFilesL = true) :
    encodeSubdirs rel l = [] := by
  cases l with
  | nil => rfl
  | cons name t rest =>
    unfold DirList.noFilesL at h
    rw [Bool.and_eq_true] at h
    unfold encodeSubdirs
    rw [encodeEntries_eq_nil (relJoin rel name) t h.1, encodeSubdirs_eq_nil rel rest h.2]
    rfl

end

/-- C4 (amended): For a directory with no regular files the produced
entry list is empty, and whenever the zip writer returns nonzero bytes for
the empty archive — as `zipfile` always does, emitting the 22-byte
end-of-central-directory record — the encoder does *not* raise: it returns
the base64 of the empty archive.  In general the `EmptyArchiveError`
(`RuntimeError`) fires exactly when the serialized archive is zero
bytes. -/
theorem C4_empty_dir_encoding :
    (∀ (L : PyLibs) (t : DirTree), t.noFiles = true → L.zipWrite [] ≠ [] →
        encode_token_store_dir_as_zip_b64 L t = Except.ok (L.b64encode (L.zipWrite [])))
    ∧ (∀ (M : PyLibs) (u : DirTree),
        encode_token_store_dir_as_zip_b64 M u
            = Except.error "Generated Garmin token store archive was empty."
          ↔ M.zipWrite (encodeEntries "" u) = []) := by
  constructor
  · intro L t h hne
    unfold encode_token_store_dir_as_zip_b64
    rw [encodeEntries_eq_nil "" t h, if_neg hne]
  · intro M u
    unfold encode_token_store_dir_as_zip_b64
    by_cases hz : M.zipWrite (encodeEntries "" u) = []
    · rw [if_pos hz]
      simp [hz]
    · rw [if_neg hz]
      simp [hz]

/-- The bytes `zipfile` produces for an archive with no entries: the
end-of-central-directory record, 22 bytes, never empty. -/
def emptyZipBytes : Bytes := [80, 75, 5, 6] ++ List.replicate 18 0

/-- Witness for the amended C4: with a serializer that emits the 22-byte
empty-archive record, encoding a file-free directory succeeds. -/
theorem C4_empty_dir_encoding_witness :
    encode_token_store_dir_as_zip_b64
        ⟨fun _ => none, fun es => if es.isEmpty then emptyZipBytes else [0], fun _ => none,
          fun _ => [], fun _ => "UEsFBgAAAAAAAAAAAAAAAAAAAAAAAA==", fun _ => none⟩
        (DirTree.node [] DirList.nil)
      = Except.ok "UEsFBgAAAAAAAAAAAAAAAAAAAAAAAA==" :=
  C4_empty_dir_encoding.1
    ⟨fun _ => none, fun es => if es.isEmpty then emptyZipBytes else [0], fun _ => none,
      fun _ => [], fun _ => "UEsFBgAAAAAAAAAAAAAAAAAAAAAAAA==", fun _ => none⟩
    (DirTree.node [] DirList.nil) rfl (by decide)

/-- Counterexample to C4 as stated: the claim asserts that a directory
with no regular files makes the encoder raise `EmptyArchiveError` because
the archive is zero bytes.  With the zip writer behaving as `zipfile`
does — an empty archive is the nonempty 22-byte end-of-central-directory
record — the encoder returns `ok` and never raises. -/
theorem C4_empty_dir_counterexample :
    (DirTree.node [] DirList.nil).noFiles = true
    ∧ encode_token_store_dir_as_zip_b64
        ⟨fun _ => none, fun es => if es.isEmpty then emptyZipBytes else [0], fun _ => none,
          fun _ => [], fun _ => "UEsFBgAAAAAAAAAAAAAAAAAAAAAAAA==", fun _ => none⟩
        (DirTree.node [] DirList.nil)
      ≠ Except.error "Generated Garmin token store archive was empty." := by
  constructor
  · rfl
  · intro h
    cases h

/-! ## Determinism of the encoder (C6) -/

theorem sortedNames_perm_eq (l1 l2 : List String) (h : l1.Perm l2) :
    sortedNames l1 = sortedNames l2 := by
  unfold sortedNames
  exact List.eq_of_perm_of_sorted
    ((List.perm_insertionSort nameLeP l1).trans (h.trans (List.perm_insertionSort nameLeP l2).symm))
    (List.sorted_insertionSort nameLeP l1)
    (List.sorted_insertionSort nameLeP l2)

theorem lookup_perm_eq {β : Type} : ∀ {l1 l2 : List (String × β)}, l1.Perm l2 →
    (l1.map Prod.fst).Nodup → ∀ n, l1.lookup n = l2.lookup n := by
  intro l1 l2 h
  induction h with
  | nil => exact fun _ _ => rfl
  | cons x h ih =>
    intro hnd n
    obtain ⟨k, v⟩ := x
    by_cases hn : n = k
    · subst hn
      rw [lookup_cons_self, lookup_cons_self]
    · rw [lookup_cons_of_ne _ _ _ _ hn, lookup_cons_of_ne _ _ _ _ hn]
      exact ih (List.nodup_cons.mp (by simpa using hnd)).2 n
  | swap x y l =>
    intro hnd n
    obtain ⟨k1, v1⟩ := x
    obtain ⟨k2, v2⟩ := y
    have hk : k2 ≠ k1 := by
      have h' := hnd
      simp at h'
      exact h'.1.1
    by_cases h2 : n = k2
    · subst h2
      rw [lookup_cons_self, lookup_cons_of_ne _ _ _ _ hk, lookup_cons_self]
    · rw [lookup_cons_of_ne _ _ _ _ h2]
      by_cases h1 : n = k1
      · subst h1
        rw [lookup_cons_self, lookup_cons_self]
      · rw [lookup_cons_of_ne _ _ _ _ h1, lookup_cons_of_ne _ _ _ _ h1,
          lookup_cons_of_ne _ _ _ _ h2]
  | trans h1 h2 ih1 ih2 =>
    intro hnd n
    rw [ih1 hnd n]
    exact ih2 (((h1.map Prod.fst).nodup_iff).mp hnd) n

/-- C6 (amended): For a flat directory — no subdirectories, the
token-store layout — the encoder is deterministic: whatever order
`os.listdir` presents the files in (any permutation of the same files,
with distinct names), `sorted(files)` makes the entry list, hence the
base64 output, identical.  (For trees with several subdirectories the
subdirectory *traversal* order is the unsorted listdir order, so the
output can differ between runs; see the counterexample.) -/
theorem C6_encoder_deterministic_flat :
    ∀ (L : PyLibs) (f1 f2 : List (String × Bytes)),
      f1.Perm f2 → (f1.map Prod.fst).Nodup →
      encode_token_store_dir_as_zip_b64 L (DirTree.node f1 DirList.nil)
        = encode_token_store_dir_as_zip_b64 L (DirTree.node f2 DirList.nil) := by
  intro L f1 f2 hp hnd
  have hent : encodeEntries "" (DirTree.node f1 DirList.nil)
      = encodeEntries "" (DirTree.node f2 DirList.nil) := by
    unfold encodeEntries
    rw [sortedNames_perm_eq _ _ (hp.map Prod.fst)]
    have hmap : ∀ n ∈ sortedNames (f2.map Prod.fst),
        (⟨relJoin "" n, (f1.lookup n).getD []⟩ : ZEntry)
          = ⟨relJoin "" n, (f2.lookup n).getD []⟩ := by
      intro n _
      rw [lookup_perm_eq hp hnd n]
    rw [List.map_congr_left hmap]
  unfold encode_token_store_dir_as_zip_b64
  rw [hent]

/-- Witness for the amended C6: the two-file token-store layout encodes
identically whichever order `os.listdir` yields the files in. -/
theorem C6_encoder_deterministic_flat_witness :
    encode_token_store_dir_as_zip_b64
        ⟨fun _ => none, fun es => es.bind (fun e => e.filename.data.map Char.toNat ++ 0 :: e.content),
          fun _ => none, fun _ => [], fun bs => String.mk (bs.map fun n => Char.ofNat n),
          fun _ => none⟩
        (DirTree.node [("oauth2_token.json", [2]), ("oauth1_token.json", [1])] DirList.nil)
      = encode_token_store_dir_as_zip_b64
        ⟨fun _ => none, fun es => es.bind (fun e => e.filename.data.map Char.toNat ++ 0 :: e.content),
          fun _ => none, fun _ => [], fun bs => String.mk (bs.map fun n => Char.ofNat n),
          fun _ => none⟩
        (DirTree.node [("oauth1_token.json", [1]), ("oauth2_token.json", [2])] DirList.nil) :=
  C6_encoder_deterministic_flat _
    [("oauth2_token.json", [2]), ("oauth1_token.json", [1])]
    [("oauth1_token.json", [1]), ("oauth2_token.json", [2])]
    (List.Perm.swap ("oauth1_token.json", [1]) ("oauth2_token.json", [2]) [])
    (by decide)

/-- A subdirectory holding one file `f`. -/
def subTreeF : DirTree := DirTree.node [("f", [1])] DirList.nil

/-- A subdirectory holding one file `g`. -/
def subTreeG : DirTree := DirTree.node [("g", [2])] DirList.nil

/-- The same directory contents with `os.listdir` returning subdirectory
`a` before `b`. -/
def walkTreeAB : DirTree :=
  DirTree.node [] (DirList.cons "a" subTreeF (DirList.cons "b" subTreeG DirList.nil))

/-- The same directory contents with `os.listdir` returning subdirectory
`b` before `a`. -/
def walkTreeBA : DirTree :=
  DirTree.node [] (DirList.cons "b" subTreeG (DirList.cons "a" subTreeF DirList.nil))

/-- A zip writer that records entry names and contents in order (real
archives embed names in entry order), and a byte-faithful base64. -/
def listdirLibs : PyLibs :=
  ⟨fun _ => none, fun es => es.bind (fun e => e.filename.data.map Char.toNat ++ 0 :: e.content),
    fun _ => none, fun _ => [], fun bs => String.mk (bs.map fun n => Char.ofNat n),
    fun _ => none⟩

/-- Counterexample to C6 as stated: two runs over the *same directory
contents* (identical files, subdirectory lists that are permutations of
each other) produce different base64 strings, because the source sorts
only `files`, not `_dirs`, and `os.walk` follows the arbitrary listdir
order into subdirectories. -/
theorem C6_listdir_order_counterexample :
    walkTreeAB.filesOf = walkTreeBA.filesOf
    ∧ walkTreeAB.subdirsOf.toList.Perm walkTreeBA.subdirsOf.toList
    ∧ encode_token_store_dir_as_zip_b64 listdirLibs walkTreeAB
        = Except.ok (listdirLibs.b64encode (listdirLibs.zipWrite (encodeEntries "" walkTreeAB)))
    ∧ encode_token_store_dir_as_zip_b64 listdirLibs walkTreeBA
        = Except.ok (listdirLibs.b64encode (listdirLibs.zipWrite (encodeEntries "" walkTreeBA)))
    ∧ listdirLibs.b64encode (listdirLibs.zipWrite (encodeEntries "" walkTreeAB))
        ≠ listdirLibs.b64encode (listdirLibs.zipWrite (encodeEntries "" walkTreeBA)) := by
  refine ⟨rfl, List.Perm.swap ("b", subTreeG) ("a", subTreeF) [], rfl, rfl, by decide⟩

/-! ## The round trip (C2) -/

theorem extractLoop_none_of_safe (cwd tA : String) (entries : List ZEntry) :
    ∀ fs : FS, (∀ e ∈ entries, e.filename = "" ∨ ¬ EntryRejected cwd tA e) →
      (extractLoop cwd tA fs entries).2 = none := by
  induction entries with
  | nil => exact fun fs _ => rfl
  | cons a rest ih =>
    intro fs hsafe
    by_cases ha0 : a.filename = ""
    · rw [extractLoop_cons_skip cwd tA fs a rest ha0]
      exact ih fs (fun e he => hsafe e (List.mem_cons_of_mem a he))
    · have hau : ¬ EntryRejected cwd tA a := by
        rcases hsafe a (List.mem_cons_self a rest) with h0 | h0
        · exact absurd h0 ha0
        · exact h0
      rw [extractLoop_cons_safe cwd tA fs a rest ha0 hau]
      by_cases hd : a.isDirEntry
      · rw [if_pos hd]
        exact ih _ (fun e he => hsafe e (List.mem_cons_of_mem a he))
      · rw [if_neg hd]
        exact ih _ (fun e he => hsafe e (List.mem_cons_of_mem a he))

theorem extractLoop_lookup_preserve (cwd tA d : String) (entries : List ZEntry) :
    ∀ fs : FS, (∀ e ∈ entries, e.filename ≠ "" → entryDest cwd tA e ≠ d) →
      (extractLoop cwd tA fs entries).1.lookupFile d = fs.lookupFile d := by
  induction entries with
  | nil => exact fun fs _ => rfl
  | cons a rest ih =>
    intro fs hno
    by_cases ha0 : a.filename = ""
    · rw [extractLoop_cons_skip cwd tA fs a rest ha0]
      exact ih fs (fun e he => hno e (List.mem_cons_of_mem a he))
    · by_cases hau : EntryRejected cwd tA a
      · rw [extractLoop_cons_raises cwd tA fs a rest ha0 hau]
      · rw [extractLoop_cons_safe cwd tA fs a rest ha0 hau]
        by_cases hd : a.isDirEntry
        · rw [if_pos hd, ih _ (fun e he => hno e (List.mem_cons_of_mem a he)),
            FS.lookupFile_makedirs]
        · rw [if_neg hd, ih _ (fun e he => hno e (List.mem_cons_of_mem a he)),
            FS.lookupFile_setFile_ne _ _ _ _ (Ne.symm (hno a (List.mem_cons_self a rest) ha0)),
            FS.lookupFile_makedirs]

theorem extractLoop_lookup_written (cwd tA : String) (entries : List ZEntry) :
    ∀ (fs : FS) (e : ZEntry),
      (∀ e' ∈ entries, e'.filename = "" ∨ ¬ EntryRejected cwd tA e') →
      ((entries.map (entryDest cwd tA)).Nodup) →
      e ∈ entries → e.filename ≠ "" → e.isDirEntry = false →
      (extractLoop cwd tA fs entries).1.lookupFile (entryDest cwd tA e) = some e.content := by
  induction entries with
  | nil =>
    intro fs e _ _ he
    simp at he
  | cons a rest ih =>
    intro fs e hsafe hnd he hne hdir
    have hndc : ((entryDest cwd tA a :: rest.map (entryDest cwd tA))).Nodup := by
      simpa using hnd
    rcases List.mem_cons.mp he with rfl | herest
    · have hau : ¬ EntryRejected cwd tA e := by
        rcases hsafe e (List.mem_cons_self e rest) with h0 | h0
        · exact absurd h0 hne
        · exact h0
      rw [extractLoop_cons_safe cwd tA fs e rest hne hau, if_neg (by simp [hdir])]
      rw [extractLoop_lookup_preserve cwd tA _ rest _ ?_]
      · exact FS.lookupFile_setFile_self _ _ _
      · intro e' he' _
        intro hc
        exact (List.nodup_cons.mp hndc).1 (hc ▸ List.mem_map_of_mem (entryDest cwd tA) he')
    · by_cases ha0 : a.filename = ""
      · rw [extractLoop_cons_skip cwd tA fs a rest ha0]
        exact ih fs e (fun e' he' => hsafe e' (List.mem_cons_of_mem a he'))
          (List.nodup_cons.mp hndc).2 herest hne hdir
      · have hau : ¬ EntryRejected cwd tA a := by
          rcases hsafe a (List.mem_cons_self a rest) with h0 | h0
          · exact absurd h0 ha0
          · exact h0
        rw [extractLoop_cons_safe cwd tA fs a rest ha0 hau]
        by_cases hd : a.isDirEntry
        · rw [if_pos hd]
          exact ih _ e (fun e' he' => hsafe e' (List.mem_cons_of_mem a he'))
            (List.nodup_cons.mp hndc).2 herest hne hdir
        · rw [if_neg hd]
          exact ih _ e (fun e' he' => hsafe e' (List.mem_cons_of_mem a he'))
            (List.nodup_cons.mp hndc).2 herest hne hdir

theorem lookup_some_key_mem {β : Type} : ∀ (l : List (String × β)) (k : String) (v : β),
    l.lookup k = some v → k ∈ l.map Prod.fst := by
  intro l
  induction l with
  | nil =>
    intro k v h
    cases h
  | cons kv t ih =>
    intro k v h
    obtain ⟨k0, v0⟩ := kv
    by_cases hk : k = k0
    · subst hk
      simp
    · rw [lookup_cons_of_ne _ _ _ _ hk] at h
      simpa using Or.inr (by simpa using ih k v h)

/-- C2 (amended): Encoding a ready token-store directory to
base64-zip and writing the decoded bytes into a target yields a ready
store whose two token files hold byte-identical content — provided the
directory's entry names are well formed for extraction (no name normalizes
to an unsafe path, which holds whenever no filename contains a backslash)
and no two entries resolve to the same destination (distinct real
filenames), with the target path in canonical absolute form and the
zip/base64 codecs round-tripping on the produced archive (as the real
libraries do).  The unamended claim fails for ready directories holding a
file whose name contains a backslash; see the counterexample. -/
theorem C2_round_trip :
    ∀ (L : PyLibs) (cwd : String) (fs : FS) (files : List (String × Bytes)) (sds : DirList)
      (target : String) (c1 c2 : Bytes),
      files.lookup OAUTH1_TOKEN_FILENAME = some c1 →
      files.lookup OAUTH2_TOKEN_FILENAME = some c2 →
      L.b64decode (L.b64encode (L.zipWrite (encodeEntries "" (DirTree.node files sds))))
          = some (L.zipWrite (encodeEntries "" (DirTree.node files sds))) →
      L.zipParse (L.zipWrite (encodeEntries "" (DirTree.node files sds)))
          = some (encodeEntries "" (DirTree.node files sds)) →
      L.zipWrite (encodeEntries "" (DirTree.node files sds)) ≠ [] →
      (∀ e ∈ encodeEntries "" (DirTree.node files sds),
          e.filename = "" ∨ ¬ EntryRejected cwd (absPathS cwd target) e) →
      ((encodeEntries "" (DirTree.node files sds)).map
          (entryDest cwd (absPathS cwd target))).Nodup →
      absPathS cwd target = target →
      ∃ (s : String) (bs : Bytes),
        encode_token_store_dir_as_zip_b64 L (DirTree.node files sds) = Except.ok s
        ∧ decode_token_store_b64 L s = Except.ok bs
        ∧ (write_token_store_bytes L cwd fs bs target).2 = Except.ok target
        ∧ token_store_ready cwd (write_token_store_bytes L cwd fs bs target).1 target = true
        ∧ (write_token_store_bytes L cwd fs bs target).1.lookupFile
            (resolve cwd (pathJoinS target OAUTH1_TOKEN_FILENAME)) = some c1
        ∧ (write_token_store_bytes L cwd fs bs target).1.lookupFile
            (resolve cwd (pathJoinS target OAUTH2_TOKEN_FILENAME)) = some c2 := by
  intro L cwd fs files sds target c1 c2 h1 h2 hcohB hcohZ hne hsafe hnd hcanon
  have hform : write_token_store_bytes L cwd fs
        (L.zipWrite (encodeEntries "" (DirTree.node files sds))) target
      = ((extractLoop cwd (absPathS cwd target) (clear_and_prepare_dir cwd fs target)
            (encodeEntries "" (DirTree.node files sds))).1, Except.ok target) := by
    unfold write_token_store_bytes
    simp only [hcohZ]
    unfold safe_extract_zip
    rcases hE : extractLoop cwd (absPathS cwd target) (clear_and_prepare_dir cwd fs target)
        (encodeEntries "" (DirTree.node files sds)) with ⟨g, r⟩
    have hrn : r = none := by
      have h' := extractLoop_none_of_safe cwd (absPathS cwd target) _
        (clear_and_prepare_dir cwd fs target) hsafe
      rw [hE] at h'
      exact h'
    subst hrn
    rfl
  have hmemgen : ∀ (nm : String) (c : Bytes), files.lookup nm = some c →
      (⟨nm, c⟩ : ZEntry) ∈ encodeEntries "" (DirTree.node files sds) := by
    intro nm c hc
    unfold encodeEntries
    apply List.mem_append_left
    have hk : nm ∈ sortedNames (files.map Prod.fst) := by
      unfold sortedNames
      exact ((List.perm_insertionSort nameLeP (files.map Prod.fst)).mem_iff).mpr
        (lookup_some_key_mem files _ _ hc)
    have hmm := List.mem_map_of_mem
      (fun n => (⟨relJoin "" n, (files.lookup n).getD []⟩ : ZEntry)) hk
    simpa [relJoin, hc] using hmm
  have hdestgen : ∀ (nm : String) (c : Bytes),
      String.mk (replaceBackslashes nm.data) = nm →
      entryDest cwd (absPathS cwd target) (⟨nm, c⟩ : ZEntry)
        = resolve cwd (pathJoinS target nm) := by
    intro nm c hnm
    unfold entryDest resolve
    rw [hcanon]
    simp only []
    rw [hnm]
  have hlk1 : (write_token_store_bytes L cwd fs
        (L.zipWrite (encodeEntries "" (DirTree.node files sds))) target).1.lookupFile
      (resolve cwd (pathJoinS target OAUTH1_TOKEN_FILENAME)) = some c1 := by
    rw [hform]
    have h' := extractLoop_lookup_written cwd (absPathS cwd target) _
      (clear_and_prepare_dir cwd fs target) ⟨OAUTH1_TOKEN_FILENAME, c1⟩ hsafe hnd
      (hmemgen _ _ h1)
      (fun h => absurd (show OAUTH1_TOKEN_FILENAME = "" from h) (by decide))
      (show ("/".data.isSuffixOf OAUTH1_TOKEN_FILENAME.data) = false by decide)
    rw [hdestgen OAUTH1_TOKEN_FILENAME c1 (by decide)] at h'
    exact h'
  have hlk2 : (write_token_store_bytes L cwd fs
        (L.zipWrite (encodeEntries "" (DirTree.node files sds))) target).1.lookupFile
      (resolve cwd (pathJoinS target OAUTH2_TOKEN_FILENAME)) = some c2 := by
    rw [hform]
    have h' := extractLoop_lookup_written cwd (absPathS cwd target) _
      (clear_and_prepare_dir cwd fs target) ⟨OAUTH2_TOKEN_FILENAME, c2⟩ hsafe hnd
      (hmemgen _ _ h2)
      (fun h => absurd (show OAUTH2_TOKEN_FILENAME = "" from h) (by decide))
      (show ("/".data.isSuffixOf OAUTH2_TOKEN_FILENAME.data) = false by decide)
    rw [hdestgen OAUTH2_TOKEN_FILENAME c2 (by decide)] at h'
    exact h'
  refine ⟨L.b64encode (L.zipWrite (encodeEntries "" (DirTree.node files sds))),
    L.zipWrite (encodeEntries "" (DirTree.node files sds)), ?_, ?_, ?_, ?_, hlk1, hlk2⟩
  · unfold encode_token_store_dir_as_zip_b64
    rw [if_neg hne]
  · unfold decode_token_store_b64
    rw [hcohB]
  · rw [hform]
  · unfold token_store_ready FS.isfile FS.isfileAbs
    rw [hlk1, hlk2]
    rfl

/-- Witness for the amended C2: the canonical two-file token store
round-trips through encode, decode and write, ending ready with identical
bytes per file. -/
theorem C2_round_trip_witness :
    ∃ (s : String) (bs : Bytes),
      encode_token_store_dir_as_zip_b64
          ⟨fun b => if b = [7] then some [⟨"oauth1_token.json", [10]⟩,
              ⟨"oauth2_token.json", [20]⟩] else none,
            fun _ => [7], fun _ => none, fun _ => [],
            fun _ => "QQ==", fun s => if s = "QQ==" then some [7] else none⟩
          (DirTree.node [("oauth1_token.json", [10]), ("oauth2_token.json", [20])] DirList.nil)
        = Except.ok s
      ∧ decode_token_store_b64
          ⟨fun b => if b = [7] then some [⟨"oauth1_token.json", [10]⟩,
              ⟨"oauth2_token.json", [20]⟩] else none,
            fun _ => [7], fun _ => none, fun _ => [],
            fun _ => "QQ==", fun s => if s = "QQ==" then some [7] else none⟩ s
        = Except.ok bs
      ∧ (write_token_store_bytes
          ⟨fun b => if b = [7] then some [⟨"oauth1_token.json", [10]⟩,
              ⟨"oauth2_token.json", [20]⟩] else none,
            fun _ => [7], fun _ => none, fun _ => [],
            fun _ => "QQ==", fun s => if s = "QQ==" then some [7] else none⟩
          "/" FS.empty bs "/fresh").2 = Except.ok "/fresh"
      ∧ token_store_ready "/"
          (write_token_store_bytes
            ⟨fun b => if b = [7] then some [⟨"oauth1_token.json", [10]⟩,
                ⟨"oauth2_token.json", [20]⟩] else none,
              fun _ => [7], fun _ => none, fun _ => [],
              fun _ => "QQ==", fun s => if s = "QQ==" then some [7] else none⟩
            "/" FS.empty bs "/fresh").1 "/fresh" = true
      ∧ (write_token_store_bytes
          ⟨fun b => if b = [7] then some [⟨"oauth1_token.json", [10]⟩,
              ⟨"oauth2_token.json", [20]⟩] else none,
            fun _ => [7], fun _ => none, fun _ => [],
            fun _ => "QQ==", fun s => if s = "QQ==" then some [7] else none⟩
          "/" FS.empty bs "/fresh").1.lookupFile
          (resolve "/" (pathJoinS "/fresh" OAUTH1_TOKEN_FILENAME)) = some [10]
      ∧ (write_token_store_bytes
          ⟨fun b => if b = [7] then some [⟨"oauth1_token.json", [10]⟩,
              ⟨"oauth2_token.json", [20]⟩] else none,
            fun _ => [7], fun _ => none, fun _ => [],
            fun _ => "QQ==", fun s => if s = "QQ==" then some [7] else none⟩
          "/" FS.empty bs "/fresh").1.lookupFile
          (resolve "/" (pathJoinS "/fresh" OAUTH2_TOKEN_FILENAME)) = some [20] :=
  C2_round_trip
    ⟨fun b => if b = [7] then some [⟨"oauth1_token.json", [10]⟩,
        ⟨"oauth2_token.json", [20]⟩] else none,
      fun _ => [7], fun _ => none, fun _ => [],
      fun _ => "QQ==", fun s => if s = "QQ==" then some [7] else none⟩
    "/" FS.empty [("oauth1_token.json", [10]), ("oauth2_token.json", [20])] DirList.nil
    "/fresh" [10] [20] rfl rfl rfl (by decide) (by decide) (by decide) (by decide) (by decide)

/-- Counterexample to C2 as stated: a directory that *is* ready (both
token files present) but also holds a file literally named `..\evil` — a
legal Linux filename.  Its archive entry name normalizes to `../evil`, so
`write_token_store_bytes` raises `UnsafeArchiveEntryError` on the written
archive and the fresh target never becomes ready. -/
theorem C2_backslash_counterexample :
    (([("..\\evil", [6]), ("oauth1_token.json", [10]), ("oauth2_token.json", [20])]
        : List (String × Bytes)).lookup OAUTH1_TOKEN_FILENAME = some [10])
    ∧ (([("..\\evil", [6]), ("oauth1_token.json", [10]), ("oauth2_token.json", [20])]
        : List (String × Bytes)).lookup OAUTH2_TOKEN_FILENAME = some [20])
    ∧ (⟨fun b => if b = [7] then some [⟨"..\\evil", [6]⟩, ⟨"oauth1_token.json", [10]⟩,
            ⟨"oauth2_token.json", [20]⟩] else none,
          fun _ => [7], fun _ => none, fun _ => [],
          fun _ => "RR==", fun s => if s = "RR==" then some [7] else none⟩ : PyLibs).zipParse
        ((⟨fun b => if b = [7] then some [⟨"..\\evil", [6]⟩, ⟨"oauth1_token.json", [10]⟩,
            ⟨"oauth2_token.json", [20]⟩] else none,
          fun _ => [7], fun _ => none, fun _ => [],
          fun _ => "RR==", fun s => if s = "RR==" then some [7] else none⟩ : PyLibs).zipWrite
          (encodeEntries "" (DirTree.node [("..\\evil", [6]), ("oauth1_token.json", [10]),
            ("oauth2_token.json", [20])] DirList.nil)))
      = some (encodeEntries "" (DirTree.node [("..\\evil", [6]), ("oauth1_token.json", [10]),
          ("oauth2_token.json", [20])] DirList.nil))
    ∧ encode_token_store_dir_as_zip_b64
        ⟨fun b => if b = [7] then some [⟨"..\\evil", [6]⟩, ⟨"oauth1_token.json", [10]⟩,
            ⟨"oauth2_token.json", [20]⟩] else none,
          fun _ => [7], fun _ => none, fun _ => [],
          fun _ => "RR==", fun s => if s = "RR==" then some [7] else none⟩
        (DirTree.node [("..\\evil", [6]), ("oauth1_token.json", [10]),
          ("oauth2_token.json", [20])] DirList.nil)
      = Except.ok "RR=="
    ∧ decode_token_store_b64
        ⟨fun b => if b = [7] then some [⟨"..\\evil", [6]⟩, ⟨"oauth1_token.json", [10]⟩,
            ⟨"oauth2_token.json", [20]⟩] else none,
          fun _ => [7], fun _ => none, fun _ => [],
          fun _ => "RR==", fun s => if s = "RR==" then some [7] else none⟩ "RR=="
      = Except.ok [7]
    ∧ (write_token_store_bytes
        ⟨fun b => if b = [7] then some [⟨"..\\evil", [6]⟩, ⟨"oauth1_token.json", [10]⟩,
            ⟨"oauth2_token.json", [20]⟩] else none,
          fun _ => [7], fun _ => none, fun _ => [],
          fun _ => "RR==", fun s => if s = "RR==" then some [7] else none⟩
        "/" FS.empty [7] "/fresh").2
      = Except.error (unsafeEntryMsg "..\\evil")
    ∧ token_store_ready "/"
        (write_token_store_bytes
          ⟨fun b => if b = [7] then some [⟨"..\\evil", [6]⟩, ⟨"oauth1_token.json", [10]⟩,
              ⟨"oauth2_token.json", [20]⟩] else none,
            fun _ => [7], fun _ => none, fun _ => [],
            fun _ => "RR==", fun s => if s = "RR==" then some [7] else none⟩
          "/" FS.empty [7] "/fresh").1 "/fresh" = false := by
  refine ⟨rfl, rfl, by decide, rfl, rfl, rfl, by decide⟩

end GarminTokenStore
